import Mathlib

/-!
Verification development for the WReasonsForm server (`src/server.js`, the
Express monolith) against its natural-language specification.

The JavaScript handlers are shallowly embedded as pure Lean functions over an
explicit database state (`DB`) plus an upload-directory model (`World`).
Machine arithmetic does not arise (amounts are decimal integers in MSSQL);
dates travel as ISO `YYYY-MM-DD` strings whose lexicographic order coincides
with chronological order, matching the JavaScript `new Date(a) > new Date(b)`
comparisons on such strings.
-/

namespace ReasonsForm

/-! ## Small string / digit helpers mirroring JavaScript behaviour -/

/-- The character `'0' + d`; for `d ≤ 9` this is the decimal digit character. -/
def digitChar (d : Nat) : Char := Char.ofNat (48 + d)

/-- Decimal digits of `n`, most significant first, with structural fuel
(`fuel > n` suffices since `n / 10 < n` for `n ≥ 10`). -/
def natDigitsAux : Nat → Nat → List Nat
  | 0, _ => []
  | fuel + 1, n => if n < 10 then [n] else natDigitsAux fuel (n / 10) ++ [n % 10]

/-- Decimal digits of `n`, most significant first (`String(n)` in JS). -/
def natDigits (n : Nat) : List Nat := natDigitsAux (n + 1) n

/-- JavaScript `String(n)` for a natural number. -/
def natToString (n : Nat) : String := ⟨(natDigits n).map digitChar⟩

/-- Two-digit zero-padded rendering of `n % 100`.
JS sites: `(month).toString().padStart(2,'0')` (month ≤ 12),
`day.toString().padStart(2,'0')` (day ≤ 31) and
`year.toString().slice(-2)` (year ≥ 1000), all of which coincide with
`pad2` on their actual argument ranges. -/
def pad2 (n : Nat) : String := ⟨[digitChar (n / 10 % 10), digitChar (n % 10)]⟩

/-- JavaScript `String(n).padStart(3, '0')`: three zero-padded digits for
`n ≤ 999`, the plain decimal rendering (4+ digits) beyond that. -/
def pad3 (n : Nat) : String :=
  if n ≤ 999 then ⟨[digitChar (n / 100), digitChar (n / 10 % 10), digitChar (n % 10)]⟩
  else natToString n

/-- JavaScript `s.trim()`: strip leading and trailing whitespace. -/
def jsTrim (s : String) : String :=
  ⟨((s.data.dropWhile Char.isWhitespace).reverse.dropWhile Char.isWhitespace).reverse⟩

/-- SQL `LIKE '<pre>%'` / JS `startsWith`: prefix test on the char lists. -/
def strStartsWith (s pre : String) : Bool := pre.data.isPrefixOf s.data

/-- Lexicographic order on character lists. -/
def listLexLt : List Char → List Char → Bool
  | [], [] => false
  | [], _ :: _ => true
  | _ :: _, [] => false
  | a :: as, b :: bs =>
    if a.toNat < b.toNat then true
    else if b.toNat < a.toNat then false
    else listLexLt as bs

/-- The JavaScript comparison `new Date(a) < new Date(b)` restricted to ISO
`YYYY-MM-DD` date strings, where it coincides with lexicographic order. -/
def dateLt (a b : String) : Bool := listLexLt a.data b.data

/-- JavaScript `s.replace(/\D/g, '')`: keep only decimal digit characters. -/
def stripNonDigits (s : String) : String := ⟨s.data.filter Char.isDigit⟩

/-- JavaScript `Number(s)` restricted to the digit-only strings produced by
`stripNonDigits`: `Number('') = 0`, otherwise the decimal value. -/
def natOfDigits (s : String) : Nat :=
  s.data.foldl (fun n c => n * 10 + (c.toNat - 48)) 0

/-! ## Request-code generation (`generateRequestCode`, server.js:109-136) -/

/-- SQL `CAST(SUBSTRING(request_code, 10, 3) AS INT)` (1-indexed positions
10..12, i.e. 0-indexed 9..11): the sequence-number field of a stored code. -/
def seqOf (code : String) : Nat := natOfDigits ⟨(code.data.drop 9).take 3⟩

/-- SQL `ISNULL(MAX(CAST(SUBSTRING(request_code,10,3) AS INT)), 0)` over the
stored codes matching `LIKE '<fullPre>-%'`. -/
def maxSeq (codes : List String) (fullPre : String) : Nat :=
  (codes.filter (fun c => strStartsWith c (fullPre ++ "-"))).foldl
    (fun m c => max m (seqOf c)) 0

/-- The retry loop of `generateRequestCode` (server.js:120-134): up to five
attempts; each attempt draws a fresh random suffix, forms the candidate and
returns it unless it already exists, in which case the sequence number is
bumped and the loop retries.  `rands` supplies the successive values of
`crypto.randomBytes(2).toString('hex').toUpperCase().slice(0,3)`. -/
def genLoop (codes : List String) (fullPre : String) :
    Nat → Nat → List String → Option String
  | 0, _, _ => none
  | _ + 1, _, [] => none
  | attempt + 1, seq, r :: rs =>
    let cand := fullPre ++ "-" ++ pad3 seq ++ "-" ++ r
    if codes.contains cand then genLoop codes fullPre attempt (seq + 1) rs
    else some cand

/-- `generateRequestCode(poolOrTx, requestType)` (server.js:109-136), with the
database projected to the list of stored `request_code` values and the current
date supplied as `(y, m, d)` (`m` is the 1-based human month, matching the
source's `getMonth()+1`).  Returns `none` where the source throws.
`codePre` is the `fullPrefix` `<R|M>-YYMMDD`. -/
def codePre (requestType : String) (y m d : Nat) : String :=
  (if requestType = "오입금" then "M" else "R") ++ "-" ++ (pad2 (y % 100) ++ pad2 m ++ pad2 d)

/-- `generateRequestCode` body, with the `typePrefix`/`datePrefix`/`fullPrefix`
computation factored into `codePre`. -/
def generateRequestCode (codes : List String) (requestType : String)
    (y m d : Nat) (rands : List String) : Option String :=
  genLoop codes (codePre requestType y m d) 5 (maxSeq codes (codePre requestType y m d) + 1) rands

/-- Decision procedure for the spec's code pattern
`<R|M>-\d{6}-\d{3}-[A-Z0-9]{3}` (16 characters exactly). -/
def isDigitCh (c : Char) : Bool := 48 ≤ c.toNat && c.toNat ≤ 57

/-- `[A-Z0-9]` from the spec's pattern. -/
def isSuffixCh (c : Char) : Bool := (65 ≤ c.toNat && c.toNat ≤ 90) || isDigitCh c

/-- The spec's request-code pattern `<R|M>-\d{6}-\d{3}-[A-Z0-9]{3}`. -/
def matchesCodePattern (s : String) : Bool :=
  match s.data with
  | [t, h1, a, b, c, d, e, f, h2, g, h, i, h3, j, k, l] =>
    (t = 'R' || t = 'M') && h1 = '-' &&
    isDigitCh a && isDigitCh b && isDigitCh c && isDigitCh d &&
    isDigitCh e && isDigitCh f && h2 = '-' &&
    isDigitCh g && isDigitCh h && isDigitCh i && h3 = '-' &&
    isSuffixCh j && isSuffixCh k && isSuffixCh l
  | _ => false

/-! ## Data model (`schema.sql`: `Requests`, `RequestFiles`; upload directory) -/

/-- A row of the `Requests` table (schema.sql:233-253).  Dates are ISO
`YYYY-MM-DD` strings; `deposit_amount` is the non-negative integer `DECIMAL`. -/
structure RequestRow where
  rid : Nat
  request_code : String
  request_date : String
  deposit_date : String
  deposit_amount : Nat
  bank_name : String
  user_account : String
  user_account_name : String
  contractor_code : String
  merchant_code : String
  applicant_name : String
  applicant_phone : String
  details : Option String
  id_card_file : Option String
  terms_agreed : Bool
  terms_ip : Option String
  status : String
  request_type : String
deriving Repr, DecidableEq

/-- A row of the `RequestFiles` table (schema.sql:264-273).  `uploaded_at`
is the `GETDATE()` insertion timestamp, modelled as a natural number drawn
from a strictly increasing clock. -/
structure FileRow where
  fid : Nat
  request_id : Nat
  filename : String
  original_name : String
  file_type : String
  category : String
  uploaded_at : Nat
deriving Repr, DecidableEq

/-- The database state relevant to the claims. -/
structure DB where
  requests : List RequestRow
  files : List FileRow
deriving Repr, DecidableEq

/-- Database plus the upload directory (`uploads/`), the latter as the list
of stored filenames currently on disk. -/
structure World where
  db : DB
  disk : List String
deriving Repr, DecidableEq

/-- A file already written (and encrypted) by the multer pipeline before a
handler body runs: `{ filename, originalname }`. -/
structure UploadedFile where
  filename : String
  originalname : String
deriving Repr, DecidableEq

/-- `SELECT ... FROM Requests WHERE id = @id` (first match by surrogate id). -/
def DB.findRequest (db : DB) (rid : Nat) : Option RequestRow :=
  db.requests.find? (fun r => r.rid = rid)

/-- `SELECT ... FROM RequestFiles WHERE request_id = @id`. -/
def DB.filesOf (db : DB) (rid : Nat) : List FileRow :=
  db.files.filter (fun f => f.request_id = rid)

/-- `SELECT COUNT(*) FROM RequestFiles WHERE request_id = @id AND category = c`
(one entry of the `GROUP BY category` count map; absent categories read 0 via
`countMap[cat] ?? 0`). -/
def DB.countCat (db : DB) (rid : Nat) (cat : String) : Nat :=
  (db.files.filter (fun f => f.request_id = rid && f.category = cat)).length

/-- In-place update of the request row with the given id. -/
def DB.mapRequest (db : DB) (rid : Nat) (g : RequestRow → RequestRow) : DB :=
  { db with requests := db.requests.map (fun r => if r.rid = rid then g r else r) }

/-- The two attachment categories (deposit evidence, identity document). -/
def depositCat : String := "입출금거래내역서"

/-- Identity-document category name. -/
def idCardCat : String := "신분증"

/-! ## Status workflow (`PUT /api/admin/status`, server.js:957-991) -/

/-- `ALLOWED_STATUSES` (server.js:962): Pending, Received, InProgress,
Completed, Rejected. -/
def ALLOWED_STATUSES : List String := ["대기", "접수", "처리중", "완료", "반려"]

/-- Terminal status (Completed). -/
def doneStatus : String := "완료"

/-- Outcomes of the `PUT /api/admin/status` handler. -/
inductive StatusResult where
  | ok
  | invalidStatus   -- 400 '유효하지 않은 상태값입니다.'
  | invalidId       -- 400 '유효하지 않은 요청 ID입니다.'
  | notFound        -- 404
  | terminal        -- 400 "'완료' 상태의 데이터는 수정할 수 없습니다."
deriving Repr, DecidableEq

/-- `PUT /api/admin/status` (server.js:957-991).  `id = none` models a missing
or non-numeric request id (`!id || isNaN(parseInt(id,10))`).  Validation of
the target status happens before any database access, exactly as in the
source; the same-status branch returns success without issuing an `UPDATE`. -/
def setStatus (db : DB) (id : Option Nat) (status : String) : StatusResult × DB :=
  if ¬ ALLOWED_STATUSES.contains status then (.invalidStatus, db)
  else match id with
    | none => (.invalidId, db)
    | some rid =>
      match db.findRequest rid with
      | none => (.notFound, db)
      | some row =>
        if row.status = doneStatus then (.terminal, db)
        else if row.status = status then (.ok, db)
        else (.ok, db.mapRequest rid (fun r => { r with status := status }))

/-! ## Upload pipeline helpers (multer, cleanup, file metadata) -/

/-- Stored filenames of a batch of uploaded files. -/
def uploadNames (fs : List UploadedFile) : List String := fs.map (·.filename)

/-- `cleanupUpload(req)` (server.js:529-543): unlink every file multer wrote
for this request from the upload directory. -/
def cleanupUpload (disk : List String) (fs : List UploadedFile) : List String :=
  disk.filter (fun n => ¬ (uploadNames fs).contains n)

/-- `upload.fields([...{maxCount: 5}...])`: multer rejects a request carrying
more than five files in either field before the handler body runs. -/
def multerFieldsOk (deposit idcard : List UploadedFile) : Prop :=
  deposit.length ≤ 5 ∧ idcard.length ≤ 5

/-- The characters after the last `'.'` of a list, ignoring none. -/
def afterLastDot : List Char → Option (List Char)
  | [] => none
  | c :: cs =>
    match afterLastDot cs with
    | some r => some r
    | none => if c = '.' then some cs else none

/-- `path.extname(file.originalname).toLowerCase().replace('.', '')`
(server.js:553): the lowercased extension without its dot, `""` when the name
has no extension (a leading dot alone does not count, as in `path.extname`). -/
def fileTypeOf (name : String) : String :=
  match name.data with
  | [] => ""
  | _ :: rest =>
    match afterLastDot rest with
    | none => ""
    | some ext => ⟨ext.map Char.toLower⟩

/-- Identity counters and insertion clock for new rows: `nextRid`/`nextFid`
are the `IDENTITY(1,1)` counters of `Requests`/`RequestFiles`, `clock` the
next `GETDATE()` value for `uploaded_at` (strictly increasing). -/
structure Ctx where
  nextRid : Nat
  nextFid : Nat
  clock : Nat
deriving Repr, DecidableEq

/-- `insertFileRecord` (server.js:552-561) iterated over one category's batch
(`for (const f of files) await insertFileRecord(...)`), threading the identity
counter and clock. -/
def insertFileRows (db : DB) (rid : Nat) (fs : List UploadedFile)
    (cat : String) (ctx : Ctx) : DB × Ctx :=
  match fs with
  | [] => (db, ctx)
  | f :: rest =>
    let row : FileRow :=
      { fid := ctx.nextFid, request_id := rid, filename := f.filename,
        original_name := f.originalname, file_type := fileTypeOf f.originalname,
        category := cat, uploaded_at := ctx.clock }
    insertFileRows { db with files := db.files ++ [row] } rid rest cat
      { ctx with nextFid := ctx.nextFid + 1, clock := ctx.clock + 1 }

/-- One step of the minimum-by-`uploaded_at` scan. -/
def minStep (acc : Option FileRow) (f : FileRow) : Option FileRow :=
  match acc with
  | none => some f
  | some g => if f.uploaded_at < g.uploaded_at then some f else some g

/-- `SELECT TOP 1 filename FROM RequestFiles WHERE request_id = @id ORDER BY
uploaded_at` (used at server.js:869-872, 1101-1105, 1157-1160). -/
def earliestFileRow (db : DB) (rid : Nat) : Option FileRow :=
  (db.filesOf rid).foldl minStep none

/-- The `UPDATE Requests SET id_card_file = @idCardFile` synchronisation of
the denormalized primary-file pointer. -/
def syncIdCard (db : DB) (rid : Nat) : DB :=
  db.mapRequest rid (fun r => { r with id_card_file := (earliestFileRow db rid).map (·.filename) })

/-! ## Submission bodies and validation -/

/-- The multipart text fields a submission may carry (`req.body`); `none`
models an absent field (`undefined`). -/
structure Body where
  request_type : Option String
  applicant_name : Option String
  applicant_phone : Option String
  request_date : Option String
  deposit_date : Option String
  deposit_amount : Option String
  bank_name : Option String
  refund_account : Option String
  refund_account_name : Option String
  contractor_type : Option String
  merchant_type : Option String
  terms_agreed : Option String
  details : Option String
deriving Repr, DecidableEq

/-- `d[field]` for the field names appearing in the handlers' required lists. -/
def Body.get (b : Body) : String → Option String
  | "applicant_name" => b.applicant_name
  | "applicant_phone" => b.applicant_phone
  | "request_date" => b.request_date
  | "deposit_date" => b.deposit_date
  | "deposit_amount" => b.deposit_amount
  | "bank_name" => b.bank_name
  | "refund_account" => b.refund_account
  | "refund_account_name" => b.refund_account_name
  | "contractor_type" => b.contractor_type
  | "merchant_type" => b.merchant_type
  | _ => none

/-- The `required` list of `POST /api/request` (server.js:597); note that it
does not contain `request_date`. -/
def publicRequired : List String :=
  ["applicant_name", "applicant_phone", "deposit_date", "deposit_amount",
   "bank_name", "refund_account", "contractor_type", "merchant_type"]

/-- The `required` list of `POST /api/admin/request` (server.js:894). -/
def adminRequired : List String :=
  ["applicant_name", "applicant_phone", "request_date", "deposit_date",
   "deposit_amount", "bank_name", "refund_account", "refund_account_name",
   "contractor_type", "merchant_type"]

/-- `for (const field of required) if (!d[field] || !d[field].trim()) ...`:
the first required field that is absent or whitespace-only. -/
def missingRequired (b : Body) (names : List String) : Option String :=
  names.find? (fun f =>
    match b.get f with
    | none => true
    | some v => jsTrim v == "")

/-- JavaScript `x || dflt` on an optional string (empty string is falsy). -/
def jsOr (o : Option String) (dflt : String) : String :=
  match o with
  | none => dflt
  | some s => if s = "" then dflt else s

/-- JavaScript truthiness of an optional string field: `undefined` and the
empty string are falsy. -/
def jsTruthy (o : Option String) : Bool :=
  match o with
  | none => false
  | some s => s ≠ ""

/-- ISO rendering of the `CAST(GETDATE() AS DATE)` server date. -/
def isoDate (y m d : Nat) : String := natToString y ++ "-" ++ pad2 m ++ "-" ++ pad2 d

/-- `['true', '1', 'on'].includes(d.terms_agreed)`. -/
def termsTrue (o : Option String) : Bool :=
  (["true", "1", "on"] : List String).contains (o.getD "")

/-- Outcomes of the two claim-creation handlers. -/
inductive SubmitOutcome where
  | ok (requestCode : String)
  | invalidType          -- 400 '유효하지 않은 신청 유형입니다.'
  | missingField (field : String)
  | nameTooLong
  | phoneInvalid
  | amountTooSmall       -- 400 '반환 청구는 200만원 이상만 신청 가능합니다.'
  | termsRequired
  | depositFilesRequired
  | idFilesRequired
  | dateOrder            -- 400 '입금일자는 신청일자와 같거나 이전이어야 합니다.'
  | codeGenFailed
deriving Repr, DecidableEq

/-- The validation prelude of `POST /api/request` (server.js:592-615), in
source order.  Returns the first failure, or `none` when the submission is
accepted for insertion. -/
def publicCheck (b : Body) (depositFiles idCardFiles : List UploadedFile) :
    Option SubmitOutcome :=
  let requestType := jsOr b.request_type "반환청구"
  if ¬ (["반환청구", "오입금"] : List String).contains requestType then some .invalidType
  else match missingRequired b publicRequired with
  | some f => some (.missingField f)
  | none =>
    if 20 < (b.applicant_name.getD "").length then some .nameTooLong
    else if (stripNonDigits (b.applicant_phone.getD "")).length < 10 then some .phoneInvalid
    else if requestType = "반환청구" ∧
        natOfDigits (stripNonDigits (b.deposit_amount.getD "")) < 2000000 then
      some .amountTooSmall
    else if ¬ termsTrue b.terms_agreed then some .termsRequired
    else if depositFiles.length = 0 then some .depositFilesRequired
    else if requestType = "반환청구" ∧ idCardFiles.length = 0 then some .idFilesRequired
    else none

/-- The transactional insert of `POST /api/request` (server.js:617-662):
generate the code, insert the `Requests` row (with
`request_date = CAST(GETDATE() AS DATE)`, i.e. the server date), then the
`RequestFiles` rows (deposit evidence first, then identity documents). -/
def publicInsert (w : World) (b : Body) (deposit idcard : List UploadedFile)
    (y m d : Nat) (rands : List String) (ctx : Ctx) : SubmitOutcome × World :=
  let requestType := jsOr b.request_type "반환청구"
  match generateRequestCode (w.db.requests.map (·.request_code)) requestType y m d rands with
  | none => (.codeGenFailed, { w with disk := cleanupUpload w.disk (deposit ++ idcard) })
  | some code =>
    let allFiles := deposit ++ idcard
    let row : RequestRow :=
      { rid := ctx.nextRid, request_code := code,
        request_date := isoDate y m d,
        deposit_date := b.deposit_date.getD "",
        deposit_amount := natOfDigits (stripNonDigits (b.deposit_amount.getD "")),
        bank_name := b.bank_name.getD "",
        user_account := stripNonDigits (b.refund_account.getD ""),
        user_account_name := b.applicant_name.getD "",
        contractor_code := b.contractor_type.getD "",
        merchant_code := b.merchant_type.getD "",
        applicant_name := b.applicant_name.getD "",
        applicant_phone := stripNonDigits (b.applicant_phone.getD ""),
        details := b.details,
        id_card_file := allFiles.head?.map (·.filename),
        terms_agreed := termsTrue b.terms_agreed,
        terms_ip := none,
        status := "대기",
        request_type := requestType }
    let db1 := { w.db with requests := w.db.requests ++ [row] }
    let r1 := insertFileRows db1 ctx.nextRid deposit depositCat
      { ctx with nextRid := ctx.nextRid + 1 }
    let r2 := insertFileRows r1.1 ctx.nextRid idcard idCardCat r1.2
    (.ok code, { w with db := r2.1 })

/-- `POST /api/request` (server.js:588-672): the public submission handler.
On entry multer has already written (and the pipeline encrypted) the uploaded
files into the upload directory; every validation failure runs
`cleanupUpload`. -/
def publicSubmit (w : World) (b : Body) (deposit idcard : List UploadedFile)
    (y m d : Nat) (rands : List String) (ctx : Ctx) : SubmitOutcome × World :=
  let w0 : World := { w with disk := w.disk ++ uploadNames (deposit ++ idcard) }
  match publicCheck b deposit idcard with
  | some e => (e, { w0 with disk := cleanupUpload w0.disk (deposit ++ idcard) })
  | none => publicInsert w0 b deposit idcard y m d rands ctx

/-- The validation prelude of `POST /api/admin/request` (server.js:887-904):
unlike the public path it requires `request_date` and `refund_account_name`,
checks `deposit_date <= request_date`, and has no minimum-amount, consent or
file-presence checks. -/
def adminCheck (b : Body) : Option SubmitOutcome :=
  let requestType := jsOr b.request_type "반환청구"
  if ¬ (["반환청구", "오입금"] : List String).contains requestType then some .invalidType
  else match missingRequired b adminRequired with
  | some f => some (.missingField f)
  | none =>
    if 20 < (b.applicant_name.getD "").length then some .nameTooLong
    else if (stripNonDigits (b.applicant_phone.getD "")).length < 10 then some .phoneInvalid
    else if dateLt (b.request_date.getD "") (b.deposit_date.getD "") then some .dateOrder
    else none

/-- The transactional insert of `POST /api/admin/request` (server.js:906-948):
`request_date` comes from the body, `user_account_name` from
`refund_account_name`, and `details` is `d.details || null`. -/
def adminInsert (w : World) (b : Body) (deposit idcard : List UploadedFile)
    (y m d : Nat) (rands : List String) (ctx : Ctx) : SubmitOutcome × World :=
  let requestType := jsOr b.request_type "반환청구"
  match generateRequestCode (w.db.requests.map (·.request_code)) requestType y m d rands with
  | none => (.codeGenFailed, { w with disk := cleanupUpload w.disk (deposit ++ idcard) })
  | some code =>
    let allFiles := deposit ++ idcard
    let row : RequestRow :=
      { rid := ctx.nextRid, request_code := code,
        request_date := b.request_date.getD "",
        deposit_date := b.deposit_date.getD "",
        deposit_amount := natOfDigits (stripNonDigits (b.deposit_amount.getD "")),
        bank_name := b.bank_name.getD "",
        user_account := stripNonDigits (b.refund_account.getD ""),
        user_account_name := b.refund_account_name.getD "",
        contractor_code := b.contractor_type.getD "",
        merchant_code := b.merchant_type.getD "",
        applicant_name := b.applicant_name.getD "",
        applicant_phone := stripNonDigits (b.applicant_phone.getD ""),
        details := match b.details with
          | some s => if s = "" then none else some s
          | none => none,
        id_card_file := allFiles.head?.map (·.filename),
        terms_agreed := termsTrue b.terms_agreed,
        terms_ip := none,
        status := "대기",
        request_type := requestType }
    let db1 := { w.db with requests := w.db.requests ++ [row] }
    let r1 := insertFileRows db1 ctx.nextRid deposit depositCat
      { ctx with nextRid := ctx.nextRid + 1 }
    let r2 := insertFileRows r1.1 ctx.nextRid idcard idCardCat r1.2
    (.ok code, { w with db := r2.1 })

/-- `POST /api/admin/request` (server.js:886-953): the admin creation
handler. -/
def adminCreate (w : World) (b : Body) (deposit idcard : List UploadedFile)
    (y m d : Nat) (rands : List String) (ctx : Ctx) : SubmitOutcome × World :=
  let w0 : World := { w with disk := w.disk ++ uploadNames (deposit ++ idcard) }
  match adminCheck b with
  | some e => (e, { w0 with disk := cleanupUpload w0.disk (deposit ++ idcard) })
  | none => adminInsert w0 b deposit idcard y m d rands ctx

/-! ## `POST /api/admin/request/:id/files` (server.js:839-883) -/

/-- Outcomes of the add-files handler. -/
inductive AddFilesOutcome where
  | ok (added : Nat)
  | badId
  | notFound
  | quotaDeposit   -- 400 '입출금거래내역서는 최대 5개까지 첨부할 수 있습니다.'
  | quotaIdCard    -- 400 '신분증은 최대 5개까지 첨부할 수 있습니다.'
deriving Repr, DecidableEq

/-- `POST /api/admin/request/:id/files`: add uploaded files to an existing
request, enforcing the per-category quota of 5, then re-sync `id_card_file`.
`id = none` models a non-numeric `:id` (`isNaN(parseInt(...))`). -/
def addFiles (w : World) (id : Option Nat) (deposit idcard : List UploadedFile)
    (ctx : Ctx) : AddFilesOutcome × World :=
  let w0 : World := { w with disk := w.disk ++ uploadNames (deposit ++ idcard) }
  match id with
  | none => (.badId, { w0 with disk := cleanupUpload w0.disk (deposit ++ idcard) })
  | some rid =>
    match w0.db.findRequest rid with
    | none => (.notFound, { w0 with disk := cleanupUpload w0.disk (deposit ++ idcard) })
    | some _ =>
      if 5 < w0.db.countCat rid depositCat + deposit.length then
        (.quotaDeposit, { w0 with disk := cleanupUpload w0.disk (deposit ++ idcard) })
      else if 5 < w0.db.countCat rid idCardCat + idcard.length then
        (.quotaIdCard, { w0 with disk := cleanupUpload w0.disk (deposit ++ idcard) })
      else
        let r1 := insertFileRows w0.db rid deposit depositCat ctx
        let r2 := insertFileRows r1.1 rid idcard idCardCat r1.2
        (.ok (deposit.length + idcard.length), { w0 with db := syncIdCard r2.1 rid })

/-! ## `DELETE /api/admin/request/:id/file/:fileId` (server.js:1131-1170) -/

/-- Outcomes of the individual file-deletion handler. -/
inductive DeleteFileOutcome where
  | ok
  | badId
  | notFound
deriving Repr, DecidableEq

/-- `DELETE /api/admin/request/:id/file/:fileId`: look up the attachment by
`(fileId, requestId)`, best-effort unlink its disk file, delete the row, then
re-sync `id_card_file`. -/
def deleteFile (w : World) (id fileId : Option Nat) : DeleteFileOutcome × World :=
  match id, fileId with
  | some rid, some fid =>
    (match w.db.files.find? (fun f => f.fid = fid && f.request_id = rid) with
    | none => (.notFound, w)
    | some f =>
      let disk1 := w.disk.filter (fun n => n ≠ f.filename)
      let db1 : DB := { w.db with files := w.db.files.filter (fun g => g.fid ≠ fid) }
      (.ok, { db := syncIdCard db1 rid, disk := disk1 }))
  | _, _ => (.badId, w)

/-! ## `PUT /api/admin/request/:id` (server.js:995-1127) -/

/-- The sparse patch body of the admin update: exactly the `allowedFields`
key set (server.js:1002-1015).  `none` models an absent key
(`d[field] !== undefined` fails). -/
structure Patch where
  request_date : Option String
  deposit_date : Option String
  deposit_amount : Option String
  bank_name : Option String
  user_account : Option String
  user_account_name : Option String
  contractor_code : Option String
  merchant_code : Option String
  applicant_name : Option String
  applicant_phone : Option String
  details : Option String
  status : Option String
deriving Repr, DecidableEq

/-- `d[field]` over the update's allow-list. -/
def Patch.get (p : Patch) : String → Option String
  | "request_date" => p.request_date
  | "deposit_date" => p.deposit_date
  | "deposit_amount" => p.deposit_amount
  | "bank_name" => p.bank_name
  | "user_account" => p.user_account
  | "user_account_name" => p.user_account_name
  | "contractor_code" => p.contractor_code
  | "merchant_code" => p.merchant_code
  | "applicant_name" => p.applicant_name
  | "applicant_phone" => p.applicant_phone
  | "details" => p.details
  | "status" => p.status
  | _ => none

/-- The key order of `allowedFields` (server.js:1002-1015). -/
def updAllowedFields : List String :=
  ["request_date", "deposit_date", "deposit_amount", "bank_name",
   "user_account", "user_account_name", "contractor_code", "merchant_code",
   "applicant_name", "applicant_phone", "details", "status"]

/-- `setClauses` after the field loop (server.js:1038-1046): one clause per
patched allowed field, in `allowedFields` order. -/
def buildSetClauses (p : Patch) : List String :=
  updAllowedFields.filter (fun f => (p.get f).isSome)

/-- The effect of the final `UPDATE Requests SET ...` on the patched row (the
field clauses; the separately pushed `id_card_file` clause is applied by the
caller).  Amount and phone are digit-stripped as in the loop's value
transforms (server.js:1041-1042). -/
def applyPatchRow (p : Patch) (r : RequestRow) : RequestRow :=
  { r with
    request_date := p.request_date.getD r.request_date,
    deposit_date := p.deposit_date.getD r.deposit_date,
    deposit_amount := match p.deposit_amount with
      | some v => natOfDigits (stripNonDigits v)
      | none => r.deposit_amount,
    bank_name := p.bank_name.getD r.bank_name,
    user_account := p.user_account.getD r.user_account,
    user_account_name := p.user_account_name.getD r.user_account_name,
    contractor_code := p.contractor_code.getD r.contractor_code,
    merchant_code := p.merchant_code.getD r.merchant_code,
    applicant_name := p.applicant_name.getD r.applicant_name,
    applicant_phone := match p.applicant_phone with
      | some v => stripNonDigits v
      | none => r.applicant_phone,
    details := match p.details with
      | some v => some v
      | none => r.details,
    status := p.status.getD r.status }

/-- The `_delete_files` form field (server.js:1049-1077): absent, a string
whose `JSON.parse` throws, a parse result that is not an array, or a parsed
array of file ids. -/
inductive DelSpec where
  | absent
  | badJson
  | notArray
  | ids (l : List Int)
deriving Repr, DecidableEq

/-- One iteration of the `_delete_files` loop (server.js:1056-1072): skip
non-positive ids, otherwise delete the row matching
`id = @fileId AND request_id = @reqId` and unlink its disk file. -/
def deleteOneFile (rid : Nat) (acc : DB × List String) (fileId : Int) : DB × List String :=
  if fileId < 1 then acc
  else
    match acc.1.files.find? (fun f => (f.fid : Int) = fileId && f.request_id = rid) with
    | none => acc
    | some f =>
      ({ acc.1 with files := acc.1.files.filter (fun g => (g.fid : Int) ≠ fileId) },
       acc.2.filter (fun n => n ≠ f.filename))

/-- Outcomes of the admin update handler.  `ok` carries the `setClauses`
column list of the executed `UPDATE`. -/
inductive UpdateOutcome where
  | ok (setFields : List String)
  | badId
  | dateOrder
  | badDeleteSpec     -- 400 '삭제할 파일 정보가 올바르지 않습니다.'
  | quotaDeposit
  | quotaIdCard
  | nothingToUpdate   -- 400 '수정할 항목이 없습니다.'
deriving Repr, DecidableEq

/-- `if (setClauses.length === 0) ... '수정할 항목이 없습니다.'`
(server.js:1109-1112). -/
def nothingToUpdateCheck (clauses : List String) : Option UpdateOutcome :=
  if clauses.isEmpty then some .nothingToUpdate else none

/-- `PUT /api/admin/request/:id` (server.js:995-1127): patch fields, delete
listed attachments, add new uploads under the per-category quota, re-sync
`id_card_file` (always included in the SET clause), and apply the `UPDATE`.
A transaction failure rolls the database back to its state at `begin`;
already-unlinked disk files stay unlinked (`fs.unlink` is not transactional).
The date-ordering check runs only when a date field is patched with a truthy
(non-empty) value, matching `if (d.deposit_date || d.request_date)`; inside
it, empty-string patches are falsy and fall back to the stored value,
matching `d.request_date || existing...`. -/
def adminUpdate (w : World) (id : Option Nat) (p : Patch) (delSpec : DelSpec)
    (deposit idcard : List UploadedFile) (ctx : Ctx) : UpdateOutcome × World :=
  let w0 : World := { w with disk := w.disk ++ uploadNames (deposit ++ idcard) }
  match id with
  | none => (.badId, w0)
  | some rid =>
    -- 입금일자 ≤ 신청일자 검증 (server.js:1018-1029)
    let dateViolation :=
      (jsTruthy p.deposit_date || jsTruthy p.request_date) &&
      (match w0.db.findRequest rid with
       | none => false
       | some ex =>
         let reqD := jsOr p.request_date ex.request_date
         let depD := jsOr p.deposit_date ex.deposit_date
         reqD ≠ "" && depD ≠ "" && dateLt reqD depD)
    if dateViolation then
      (.dateOrder, { w0 with disk := cleanupUpload w0.disk (deposit ++ idcard) })
    else
      let clauses := buildSetClauses p
      match delSpec with
      | .badJson =>
        (.badDeleteSpec, { w0 with disk := cleanupUpload w0.disk (deposit ++ idcard) })
      | .notArray => (.badDeleteSpec, w0)
      | other =>
        let l := match other with | .ids l => l | _ => []
        if (other matches DelSpec.ids _) ∧ 20 < l.length then (.badDeleteSpec, w0)
        else
          let dd := l.foldl (deleteOneFile rid) (w0.db, w0.disk)
          let db1 := dd.1
          let disk1 := dd.2
          -- 카테고리별 5개 제한 검증 (server.js:1080-1097)
          if (0 < deposit.length ∨ 0 < idcard.length) ∧
              5 < db1.countCat rid depositCat + deposit.length then
            (.quotaDeposit, { db := w0.db, disk := cleanupUpload disk1 (deposit ++ idcard) })
          else if (0 < deposit.length ∨ 0 < idcard.length) ∧
              5 < db1.countCat rid idCardCat + idcard.length then
            (.quotaIdCard, { db := w0.db, disk := cleanupUpload disk1 (deposit ++ idcard) })
          else
            let r1 := insertFileRows db1 rid deposit depositCat ctx
            let r2 := insertFileRows r1.1 rid idcard idCardCat r1.2
            let firstFileName := (earliestFileRow r2.1 rid).map (·.filename)
            let allClauses := clauses ++ ["id_card_file"]
            match nothingToUpdateCheck allClauses with
            | some e => (e, { db := w0.db, disk := disk1 })
            | none =>
              let db4 := DB.mapRequest r2.1 rid
                (fun r => { applyPatchRow p r with id_card_file := firstFileName })
              (.ok allClauses, { db := db4, disk := disk1 })

/-! ## At-rest file encryption (`encryptFile`/`decryptFile`, server.js:64-82) -/

/-- An authenticated symmetric cipher (AES-256-GCM in the source), abstracted:
`enc`/`tagOf` are the ciphertext and 16-byte auth tag of an encryption,
`dec` is authenticated decryption (`none` models the decipher throwing on
authentication failure), and `dec_enc` is the cipher's round-trip contract. -/
structure AEAD where
  enc : Nat → List Nat → List Nat → List Nat
  tagOf : Nat → List Nat → List Nat → List Nat
  dec : Nat → List Nat → List Nat → List Nat → Option (List Nat)
  tag_len : ∀ k iv msg, (tagOf k iv msg).length = 16
  dec_enc : ∀ k iv msg, dec k iv (tagOf k iv msg) (enc k iv msg) = some msg

/-- `encryptFile(filePath)` (server.js:64-72) as a transformation of the
file's byte content: overwrite with `[16-byte IV][16-byte authTag][ciphertext]`. -/
def encryptFile (A : AEAD) (key : Nat) (iv data : List Nat) : List Nat :=
  iv ++ A.tagOf key iv data ++ A.enc key iv data

/-- `decryptFile(filePath)` (server.js:74-82): split the on-disk layout at
offsets 16 and 32 (`subarray(0,16)`, `subarray(16,32)`, `subarray(32)`) and
run authenticated decryption. -/
def decryptFile (A : AEAD) (key : Nat) (data : List Nat) : Option (List Nat) :=
  A.dec key (data.take 16) ((data.drop 16).take 16) (data.drop 32)

/-- The `/uploads` download read path (server.js:288-294): try `decryptFile`,
fall back to the raw on-disk bytes when it throws. -/
def readUpload (A : AEAD) (key : Nat) (data : List Nat) : List Nat :=
  match decryptFile A key data with
  | some content => content
  | none => data

/-! ## Shared sample data for witnesses -/

/-- A well-formed `Requests` row used to instantiate witnesses. -/
def mkRow (rid : Nat) (status : String) : RequestRow :=
  { rid := rid, request_code := "R-261012-001-ABC", request_date := "2026-10-12",
    deposit_date := "2026-10-10", deposit_amount := 2500000, bank_name := "국민은행",
    user_account := "1234567890", user_account_name := "홍길동",
    contractor_code := "C1", merchant_code := "M1", applicant_name := "홍길동",
    applicant_phone := "01012345678", details := none, id_card_file := none,
    terms_agreed := true, terms_ip := none, status := status,
    request_type := "반환청구" }

/-! ## C1 — status workflow -/

/-- **C1.** `PUT /api/admin/status`: (i) an unrecognized target status fails
with a validation error before any database lookup — the response is
`invalidStatus` and is the same for every database state; (ii) any transition
requested while the record's current status is Completed (`'완료'`) fails with
the terminal-state error, including a transition to Completed itself; (iii) a
transition to the record's current status is a no-op success (database
unchanged) for every non-Completed current status. -/
theorem setStatus_workflow (db : DB) (id : Option Nat) (status : String) :
    (¬ ALLOWED_STATUSES.contains status →
      setStatus db id status = (.invalidStatus, db) ∧
      ∀ db2 : DB, setStatus db2 id status = (.invalidStatus, db2)) ∧
    (∀ rid row, id = some rid → db.findRequest rid = some row →
      row.status = doneStatus → ALLOWED_STATUSES.contains status →
      setStatus db id status = (.terminal, db)) ∧
    (∀ rid row, id = some rid → db.findRequest rid = some row →
      row.status ≠ doneStatus → row.status = status →
      ALLOWED_STATUSES.contains status →
      setStatus db id status = (.ok, db)) := by
  refine ⟨fun hbad => ⟨?_, fun db2 => ?_⟩, fun rid row hid hfind hdone hok => ?_,
    fun rid row hid hfind hdone hsame hok => ?_⟩
  · have hmem : ¬ status ∈ ALLOWED_STATUSES := by simpa using hbad
    simp [setStatus, hmem]
  · have hmem : ¬ status ∈ ALLOWED_STATUSES := by simpa using hbad
    simp [setStatus, hmem]
  · subst hid
    have hmem : status ∈ ALLOWED_STATUSES := by simpa using hok
    simp [setStatus, hmem, hfind, hdone]
  · subst hid
    have hmem : status ∈ ALLOWED_STATUSES := by simpa using hok
    rw [hsame] at hdone
    simp [setStatus, hmem, hfind, hsame, hdone]

/-- Witness for C1: concrete instantiations of all three legs. -/
theorem setStatus_workflow_witness :
    (setStatus { requests := [mkRow 1 "완료"], files := [] } (some 1) "대기"
      = (.invalidStatus, { requests := [mkRow 1 "완료"], files := [] }) ∨
     setStatus { requests := [mkRow 1 "완료"], files := [] } (some 1) "대기"
      = (.terminal, { requests := [mkRow 1 "완료"], files := [] })) ∧
    setStatus { requests := [mkRow 2 "대기"], files := [] } (some 2) "대기"
      = (.ok, { requests := [mkRow 2 "대기"], files := [] }) ∧
    setStatus { requests := [mkRow 3 "대기"], files := [] } (some 3) "엉뚱"
      = (.invalidStatus, { requests := [mkRow 3 "대기"], files := [] }) := by
  refine ⟨Or.inr ?_, ?_, ?_⟩
  · exact (setStatus_workflow _ (some 1) "대기").2.1 1 (mkRow 1 "완료") rfl
      (by decide) (by decide) (by decide)
  · exact (setStatus_workflow _ (some 2) "대기").2.2 2 (mkRow 2 "대기") rfl
      (by decide) (by decide) (by decide) (by decide)
  · exact ((setStatus_workflow { requests := [mkRow 3 "대기"], files := [] }
      (some 3) "엉뚱").1 (by decide)).1

/-! ## C5 / C6 — at-rest encryption round trip and legacy fallback -/

/-- A degenerate but contract-satisfying cipher used to instantiate the
crypto witnesses. -/
def toyAEAD : AEAD where
  enc := fun _ _ msg => msg
  tagOf := fun _ _ _ => List.replicate 16 0
  dec := fun _ _ t c => if t = List.replicate 16 0 then some c else none
  tag_len := fun _ _ _ => by simp
  dec_enc := fun _ _ _ => by simp

/-- **C5.** For every byte sequence, encrypting the file in place with
`encryptFile` and reading it back through the store's read path yields exactly
the original bytes: the `[16-byte IV][16-byte auth tag][ciphertext]` layout
written by `encryptFile` is split back at offsets 16/32 by `decryptFile` and
authenticated decryption restores the plaintext. -/
theorem encrypt_read_roundtrip (A : AEAD) (key : Nat) (iv data : List Nat)
    (hiv : iv.length = 16) :
    readUpload A key (encryptFile A key iv data) = data := by
  have hassoc : encryptFile A key iv data
      = iv ++ (A.tagOf key iv data ++ A.enc key iv data) := by
    simp [encryptFile]
  have h16 : (encryptFile A key iv data).take 16 = iv := by
    rw [hassoc, ← hiv, List.take_left]
  have hrest : (encryptFile A key iv data).drop 16
      = A.tagOf key iv data ++ A.enc key iv data := by
    rw [hassoc, ← hiv, List.drop_left]
  have htag : ((encryptFile A key iv data).drop 16).take 16 = A.tagOf key iv data := by
    rw [hrest, ← A.tag_len key iv data, List.take_left]
  have hct : (encryptFile A key iv data).drop 32 = A.enc key iv data := by
    have : (encryptFile A key iv data).drop 32
        = ((encryptFile A key iv data).drop 16).drop 16 := by
      rw [List.drop_drop]
    rw [this, hrest, ← A.tag_len key iv data, List.drop_left]
  simp [readUpload, decryptFile, h16, htag, hct, A.dec_enc]

/-- Witness for C5: a concrete round trip through the store. -/
theorem encrypt_read_roundtrip_witness :
    readUpload toyAEAD 0 (encryptFile toyAEAD 0 (List.replicate 16 1) [3, 1, 4]) = [3, 1, 4] :=
  encrypt_read_roundtrip toyAEAD 0 (List.replicate 16 1) [3, 1, 4] (by simp)

/-- **C6.** The download read path splits the on-disk layout and returns the
authenticated decryption when it succeeds; for every on-disk byte sequence on
which decryption or authentication fails it falls back to returning the raw
bytes unmodified, so a mixed corpus of encrypted and legacy-plaintext files is
always readable. -/
theorem readUpload_mixed_corpus (A : AEAD) (key : Nat) (data : List Nat) :
    (decryptFile A key data = none → readUpload A key data = data) ∧
    (∀ m, decryptFile A key data = some m → readUpload A key data = m) := by
  constructor
  · intro h
    simp [readUpload, h]
  · intro m h
    simp [readUpload, h]

/-- Witness for C6: a legacy three-byte plaintext file fails authentication
and is returned unmodified; a properly encrypted file decrypts. -/
theorem readUpload_mixed_corpus_witness :
    (decryptFile toyAEAD 0 [1, 2, 3] = none ∧ readUpload toyAEAD 0 [1, 2, 3] = [1, 2, 3]) ∧
    (decryptFile toyAEAD 0 (encryptFile toyAEAD 0 (List.replicate 16 1) [9])
        = some [9] ∧
      readUpload toyAEAD 0 (encryptFile toyAEAD 0 (List.replicate 16 1) [9]) = [9]) := by
  have h1 : decryptFile toyAEAD 0 [1, 2, 3] = none := by decide
  have h2 : decryptFile toyAEAD 0 (encryptFile toyAEAD 0 (List.replicate 16 1) [9])
      = some [9] := by decide
  exact ⟨⟨h1, (readUpload_mixed_corpus toyAEAD 0 [1, 2, 3]).1 h1⟩,
    ⟨h2, (readUpload_mixed_corpus toyAEAD 0 _).2 [9] h2⟩⟩

/-! ## C10 — public submissions stamp the server date -/

/-- `insertFileRows` never touches the `Requests` table. -/
theorem insertFileRows_requests (fs : List UploadedFile) (db : DB) (rid : Nat)
    (cat : String) (ctx : Ctx) :
    ((insertFileRows db rid fs cat ctx).1).requests = db.requests := by
  induction fs generalizing db ctx with
  | nil => rfl
  | cons f rest ih => simpa [insertFileRows] using ih _ _

/-- The validation prelude never produces a success outcome. -/
theorem publicCheck_ne_ok (b : Body) (deposit idcard : List UploadedFile)
    (c : String) : publicCheck b deposit idcard ≠ some (.ok c) := by
  intro h
  simp only [publicCheck] at h
  split at h
  · simp_all
  · split at h
    · simp_all
    · split at h
      · simp_all
      · split at h
        · simp_all
        · split at h
          · simp_all
          · split at h
            · simp_all
            · split at h
              · simp_all
              · split at h <;> simp_all

/-- **C10.** On the public submission path: `request_date` is not in the
required-field list; any client-supplied `request_date` value is ignored (the
handler's result does not depend on it); and every accepted submission stores
the server's current date (`CAST(GETDATE() AS DATE)`) as `request_date` of the
newly inserted row. -/
theorem publicSubmit_request_date (w : World) (b : Body)
    (deposit idcard : List UploadedFile) (y m d : Nat) (rands : List String)
    (ctx : Ctx) :
    ("request_date" ∉ publicRequired) ∧
    (∀ v, publicSubmit w { b with request_date := v } deposit idcard y m d rands ctx
      = publicSubmit w b deposit idcard y m d rands ctx) ∧
    (∀ code w2, publicSubmit w b deposit idcard y m d rands ctx = (.ok code, w2) →
      ∃ row : RequestRow, w2.db.requests = w.db.requests ++ [row] ∧
        row.request_date = isoDate y m d) := by
  refine ⟨by decide, fun v => ?_, fun code w2 h => ?_⟩
  · cases b
    rfl
  · simp only [publicSubmit] at h
    rcases hc : publicCheck b deposit idcard with _ | e
    · rw [hc] at h
      simp only [publicInsert] at h
      rcases hg : generateRequestCode ((w.db.requests).map (·.request_code))
          (jsOr b.request_type "반환청구") y m d rands with _ | newCode
      · rw [hg] at h
        simp at h
      · rw [hg] at h
        have h2 := congrArg (fun q => q.2.db.requests) h
        simp only [insertFileRows_requests] at h2
        exact ⟨_, h2.symm, rfl⟩
    · rw [hc] at h
      have h1 := congrArg (fun q => q.1) h
      simp only at h1
      exact absurd (h1 ▸ hc) (by simpa [h1] using publicCheck_ne_ok b deposit idcard code)

/-- An empty initial state. -/
def emptyWorld : World := { db := { requests := [], files := [] }, disk := [] }

/-- A fully valid public submission body. -/
def okBody : Body :=
  { request_type := none, applicant_name := some "홍길동",
    applicant_phone := some "010-1234-5678", request_date := none,
    deposit_date := some "2026-10-10", deposit_amount := some "2,500,000",
    bank_name := some "국민은행", refund_account := some "123-456-789",
    refund_account_name := some "홍길동", contractor_type := some "C1",
    merchant_type := some "M1", terms_agreed := some "true", details := none }

/-- One deposit-evidence upload. -/
def okDeposit : List UploadedFile := [{ filename := "d1.jpg", originalname := "evidence.jpg" }]

/-- One identity-document upload. -/
def okIdcard : List UploadedFile := [{ filename := "i1.png", originalname := "idcard.png" }]

/-- Five fresh random suffixes for the generator's retry loop. -/
def rands5 : List String := ["AB1", "CD2", "EF3", "AB4", "CD5"]

/-- Initial identity counters and clock. -/
def ctx0 : Ctx := { nextRid := 1, nextFid := 1, clock := 0 }

/-- Witness for C10: a concrete accepted submission on 2026-10-12 stores
`request_date = "2026-10-12"` although the body offered no `request_date`. -/
theorem publicSubmit_request_date_witness :
    ∃ row : RequestRow,
      (publicSubmit emptyWorld okBody okDeposit okIdcard 2026 10 12 rands5 ctx0).2.db.requests
        = emptyWorld.db.requests ++ [row] ∧ row.request_date = isoDate 2026 10 12 := by
  have hres : (publicSubmit emptyWorld okBody okDeposit okIdcard 2026 10 12 rands5 ctx0).1
      = .ok "R-261012-001-AB1" := by decide
  exact (publicSubmit_request_date emptyWorld okBody okDeposit okIdcard 2026 10 12 rands5
    ctx0).2.2 "R-261012-001-AB1" _ (by rw [← hres])

/-! ## C9 — admin update always includes the primary-file column -/

/-- The SET clause list of a successful update is never empty: the sync step
always appends `id_card_file`. -/
theorem nothingToUpdateCheck_append (l : List String) :
    nothingToUpdateCheck (l ++ ["id_card_file"]) = none := by
  cases l <;> rfl

/-- **C9.** `PUT /api/admin/request/:id` always recomputes and includes the
denormalized `id_card_file` column in the executed `UPDATE` statement, even
when no files changed — the SET clause of every successful update is exactly
the patched allowed fields followed by `id_card_file` — and the handler's
final guard fails with the nothing-to-update validation error whenever the
resulting SET clause would be empty. -/
theorem adminUpdate_setClauses (w : World) (id : Option Nat) (p : Patch)
    (delSpec : DelSpec) (deposit idcard : List UploadedFile) (ctx : Ctx) :
    (∀ fields w2, adminUpdate w id p delSpec deposit idcard ctx = (.ok fields, w2) →
      fields = buildSetClauses p ++ ["id_card_file"] ∧ "id_card_file" ∈ fields) ∧
    nothingToUpdateCheck [] = some .nothingToUpdate := by
  refine ⟨fun fields w2 h => ?_, rfl⟩
  simp only [adminUpdate] at h
  rcases id with _ | rid
  · simp at h
  · repeat' split at h
    all_goals try simp_all [nothingToUpdateCheck_append]
    all_goals rw [← h.1]; simp

/-- A patch touching only `bank_name`. -/
def pBank : Patch :=
  { request_date := none, deposit_date := none, deposit_amount := none,
    bank_name := some "신한은행", user_account := none, user_account_name := none,
    contractor_code := none, merchant_code := none, applicant_name := none,
    applicant_phone := none, details := none, status := none }

/-- Witness for C9: a concrete update patching only `bank_name` executes an
`UPDATE` whose SET clause is `bank_name, id_card_file`. -/
theorem adminUpdate_setClauses_witness :
    (adminUpdate { db := { requests := [mkRow 1 "대기"], files := [] }, disk := [] }
      (some 1) pBank .absent [] [] ctx0).1 = .ok ["bank_name", "id_card_file"] ∧
    "id_card_file" ∈ (["bank_name", "id_card_file"] : List String) := by
  have hres : (adminUpdate { db := { requests := [mkRow 1 "대기"], files := [] }, disk := [] }
      (some 1) pBank .absent [] [] ctx0).1 = .ok ["bank_name", "id_card_file"] := by decide
  refine ⟨hres, ?_⟩
  exact ((adminUpdate_setClauses { db := { requests := [mkRow 1 "대기"], files := [] }, disk := [] }
    (some 1) pBank .absent [] [] ctx0).1 ["bank_name", "id_card_file"] _ (by rw [← hres])).2

/-! ## C4 — per-category attachment quota -/

/-- Appending one file row bumps exactly its own `(request, category)` count. -/
theorem countCat_append_row (db : DB) (row : FileRow) (rid : Nat) (cat : String) :
    DB.countCat { db with files := db.files ++ [row] } rid cat
      = db.countCat rid cat
        + (if row.request_id = rid ∧ row.category = cat then 1 else 0) := by
  simp only [DB.countCat, List.filter_append, List.length_append]
  congr 1
  by_cases h : row.request_id = rid ∧ row.category = cat
  · simp [h.1, h.2]
  · rw [if_neg h]
    rcases not_and_or.mp h with h1 | h1 <;> simp [List.filter, h1]

/-- `insertFileRows` bumps exactly the inserted `(request, category)` count by
the batch size. -/
theorem countCat_insertFileRows (fs : List UploadedFile) (db : DB) (rid : Nat)
    (cat : String) (ctx : Ctx) (rid' : Nat) (cat' : String) :
    ((insertFileRows db rid fs cat ctx).1).countCat rid' cat'
      = db.countCat rid' cat'
        + (if rid = rid' ∧ cat = cat' then fs.length else 0) := by
  induction fs generalizing db ctx with
  | nil => simp [insertFileRows]
  | cons f rest ih =>
    simp only [insertFileRows]
    rw [ih, countCat_append_row]
    by_cases h : rid = rid' ∧ cat = cat' <;> simp [h, List.length_cons] <;> omega

/-- Removing rows can only shrink a count. -/
theorem countCat_filter_le (db : DB) (q : FileRow → Bool) (rid : Nat) (cat : String) :
    DB.countCat { db with files := db.files.filter q } rid cat ≤ db.countCat rid cat := by
  simpa only [DB.countCat] using
    List.Sublist.length_le (List.Sublist.filter _ (List.filter_sublist db.files))

/-- One `_delete_files` iteration never increases any count. -/
theorem countCat_deleteOneFile (rid : Nat) (acc : DB × List String) (fileId : Int)
    (rid' : Nat) (cat : String) :
    ((deleteOneFile rid acc fileId).1).countCat rid' cat ≤ acc.1.countCat rid' cat := by
  unfold deleteOneFile
  split
  · exact le_refl _
  · split
    · exact le_refl _
    · exact countCat_filter_le _ _ _ _

/-- The whole `_delete_files` loop never increases any count. -/
theorem countCat_foldDelete (l : List Int) (rid : Nat) (acc : DB × List String)
    (rid' : Nat) (cat : String) :
    ((l.foldl (deleteOneFile rid) acc).1).countCat rid' cat ≤ acc.1.countCat rid' cat := by
  induction l generalizing acc with
  | nil => exact le_refl _
  | cons x rest ih =>
    exact le_trans (ih (deleteOneFile rid acc x)) (countCat_deleteOneFile rid acc x rid' cat)

/-- Re-syncing `id_card_file` does not touch the `RequestFiles` table. -/
theorem countCat_syncIdCard (db : DB) (rid : Nat) (rid' : Nat) (cat : String) :
    (syncIdCard db rid).countCat rid' cat = db.countCat rid' cat := rfl

/-- `cleanupUpload` removes every filename of the batch from the disk. -/
theorem cleanupUpload_not_mem (disk : List String) (fs : List UploadedFile)
    (f : UploadedFile) (hf : f ∈ fs) : f.filename ∉ cleanupUpload disk fs := by
  intro hmem
  have := (List.mem_filter.mp hmem).2
  simp only [decide_not, Bool.not_eq_true', decide_eq_false_iff_not] at this
  exact this (by
    simp only [uploadNames, List.contains_iff_exists_mem_beq]
    exact ⟨f.filename, List.mem_map_of_mem _ hf, by simp⟩)

/-- `countCat` only reads the `RequestFiles` table. -/
theorem countCat_withRequests (db : DB) (reqs : List RequestRow) (rid : Nat) (cat : String) :
    DB.countCat { requests := reqs, files := db.files } rid cat = db.countCat rid cat := rfl

/-- `mapRequest` only touches the `Requests` table. -/
theorem countCat_mapRequest (db : DB) (rid' : Nat) (g : RequestRow → RequestRow)
    (rid : Nat) (cat : String) :
    (DB.mapRequest db rid' g).countCat rid cat = db.countCat rid cat := rfl

/-- Quota preservation for the public submission handler. -/
theorem quota_publicSubmit (w : World) (ctx : Ctx) (deposit idcard : List UploadedFile)
    (hInv : ∀ rid cat, w.db.countCat rid cat ≤ 5)
    (hdep : deposit.length ≤ 5) (hidc : idcard.length ≤ 5)
    (hfresh : ∀ cat, w.db.countCat ctx.nextRid cat = 0)
    (b : Body) (y m d : Nat) (rands : List String) (out : SubmitOutcome) (w2 : World)
    (h : publicSubmit w b deposit idcard y m d rands ctx = (out, w2)) :
    ∀ rid cat, w2.db.countCat rid cat ≤ 5 := by
  intro rid cat
  simp only [publicSubmit, publicInsert] at h
  repeat' split at h
  all_goals injection h with h1 h2
  all_goals subst h2
  all_goals dsimp only
  · exact hInv rid cat
  · exact hInv rid cat
  · simp only [countCat_insertFileRows, countCat_withRequests]
    by_cases h1 : ctx.nextRid = rid
    · subst h1
      have h0 := hfresh cat
      by_cases h2 : depositCat = cat <;> by_cases h3 : idCardCat = cat
      · exact absurd (h2.trans h3.symm) (by decide)
      all_goals simp [h2, h3] <;> omega
    · have h0 := hInv rid cat
      simp [h1]
      omega

/-- The double category insert of the creation handlers keeps every count at
or below 5 when the new request id is fresh and each batch has at most 5
files. -/
theorem quota_insert2 (db : DB) (reqs : List RequestRow) (nr : Nat)
    (deposit idcard : List UploadedFile) (ctx1 : Ctx)
    (hInv : ∀ rid cat, db.countCat rid cat ≤ 5)
    (hdep : deposit.length ≤ 5) (hidc : idcard.length ≤ 5)
    (hfresh : ∀ cat, db.countCat nr cat = 0) (rid : Nat) (cat : String) :
    ((insertFileRows
        (insertFileRows { requests := reqs, files := db.files } nr deposit depositCat ctx1).1
        nr idcard idCardCat
        (insertFileRows { requests := reqs, files := db.files } nr deposit depositCat ctx1).2).1).countCat
      rid cat ≤ 5 := by
  simp only [countCat_insertFileRows, countCat_withRequests]
  by_cases h1 : nr = rid
  · subst h1
    have h0 := hfresh cat
    by_cases h2 : depositCat = cat <;> by_cases h3 : idCardCat = cat
    · exact absurd (h2.trans h3.symm) (by decide)
    all_goals simp [h2, h3] <;> omega
  · have h0 := hInv rid cat
    simp [h1]
    omega

/-- Quota preservation for the admin creation handler. -/
theorem quota_adminCreate (w : World) (ctx : Ctx) (deposit idcard : List UploadedFile)
    (hInv : ∀ rid cat, w.db.countCat rid cat ≤ 5)
    (hdep : deposit.length ≤ 5) (hidc : idcard.length ≤ 5)
    (hfresh : ∀ cat, w.db.countCat ctx.nextRid cat = 0)
    (b : Body) (y m d : Nat) (rands : List String) (out : SubmitOutcome) (w2 : World)
    (h : adminCreate w b deposit idcard y m d rands ctx = (out, w2)) :
    ∀ rid cat, w2.db.countCat rid cat ≤ 5 := by
  intro rid cat
  simp only [adminCreate, adminInsert] at h
  repeat' split at h
  all_goals injection h with h1 h2
  all_goals subst h2
  all_goals dsimp only
  all_goals first
    | exact hInv rid cat
    | exact quota_insert2 w.db _ ctx.nextRid deposit idcard _ hInv hdep hidc hfresh rid cat

/-- Quota preservation for the add-files handler. -/
theorem quota_addFiles (w : World) (ctx : Ctx) (deposit idcard : List UploadedFile)
    (hInv : ∀ rid cat, w.db.countCat rid cat ≤ 5)
    (id : Option Nat) (out : AddFilesOutcome) (w2 : World)
    (h : addFiles w id deposit idcard ctx = (out, w2)) :
    ∀ rid cat, w2.db.countCat rid cat ≤ 5 := by
  intro rid cat
  simp only [addFiles] at h
  repeat' split at h
  all_goals injection h with h1 h2
  all_goals subst h2
  all_goals try dsimp only
  all_goals first
    | exact hInv rid cat
    | (rename_i rid0 xopt row hfind hdq hiq
       rw [countCat_syncIdCard]
       simp only [countCat_insertFileRows]
       simp only [not_lt] at hdq hiq
       by_cases h1 : rid0 = rid
       · subst h1
         have h0 := hInv rid0 cat
         by_cases h2 : depositCat = cat <;> by_cases h3 : idCardCat = cat
         · exact absurd (h2.trans h3.symm) (by decide)
         · rw [← h2] at h3 h0 ⊢
           simp [h3]
           omega
         · rw [← h3] at h2 h0 ⊢
           simp [h2]
           omega
         · simp [h2, h3]
           omega
       · have h0 := hInv rid cat
         simp [h1]
         omega)

/-- The double category insert of the update handler keeps every count at or
below 5 when the base state is within quota and the two quota checks passed. -/
theorem quota_insert2' (dbDel : DB) (rid1 : Nat)
    (deposit idcard : List UploadedFile) (ctx : Ctx)
    (hbase : ∀ rid cat, dbDel.countCat rid cat ≤ 5)
    (hq1 : 0 < deposit.length ∨ 0 < idcard.length →
      dbDel.countCat rid1 depositCat + deposit.length ≤ 5)
    (hq2 : 0 < deposit.length ∨ 0 < idcard.length →
      dbDel.countCat rid1 idCardCat + idcard.length ≤ 5)
    (rid : Nat) (cat : String) :
    ((insertFileRows (insertFileRows dbDel rid1 deposit depositCat ctx).1
        rid1 idcard idCardCat
        (insertFileRows dbDel rid1 deposit depositCat ctx).2).1).countCat rid cat ≤ 5 := by
  simp only [countCat_insertFileRows]
  by_cases hr : rid1 = rid
  · subst hr
    by_cases h2 : depositCat = cat <;> by_cases h3 : idCardCat = cat
    · exact absurd (h2.trans h3.symm) (by decide)
    · rw [← h2] at h3 ⊢
      simp [h3]
      rcases Nat.eq_zero_or_pos deposit.length with hz | hp
      · have := hbase rid1 depositCat
        omega
      · have := hq1 (Or.inl hp)
        omega
    · rw [← h3] at h2 ⊢
      simp [h2]
      rcases Nat.eq_zero_or_pos idcard.length with hz | hp
      · have := hbase rid1 idCardCat
        omega
      · have := hq2 (Or.inr hp)
        omega
    · have := hbase rid1 cat
      simp [h2, h3]
      omega
  · have := hbase rid cat
    simp [hr]
    omega

/-- Quota preservation for the admin update handler. -/
theorem quota_adminUpdate (w : World) (ctx : Ctx) (deposit idcard : List UploadedFile)
    (hInv : ∀ rid cat, w.db.countCat rid cat ≤ 5)
    (id : Option Nat) (p : Patch) (delSpec : DelSpec)
    (out : UpdateOutcome) (w2 : World)
    (h : adminUpdate w id p delSpec deposit idcard ctx = (out, w2)) :
    ∀ rid cat, w2.db.countCat rid cat ≤ 5 := by
  intro rid cat
  simp only [adminUpdate] at h
  rcases id with _ | rid1
  · injection h with h1 h2
    subst h2
    exact hInv rid cat
  · rcases delSpec with _ | _ | _ | l0
    all_goals repeat' split at h
    all_goals injection h with h1 h2
    all_goals subst h2
    all_goals try injections
    all_goals try subst_eqs
    all_goals try dsimp only at *
    all_goals first
      | exact hInv rid cat
      | contradiction
      | (rw [countCat_mapRequest]
         refine quota_insert2' _ _ deposit idcard _ (fun rid' cat' => ?_)
           (fun hpos => Nat.le_of_not_lt (fun hlt => absurd (And.intro hpos hlt) (by assumption)))
           (fun hpos => Nat.le_of_not_lt (fun hlt => absurd (And.intro hpos hlt) (by assumption)))
           rid cat
         first
           | exact le_trans (countCat_foldDelete _ _ _ _ _) (hInv rid' cat')
           | exact hInv rid' cat')

/-- Quota preservation for the individual file-deletion handler. -/
theorem quota_deleteFile (w : World)
    (hInv : ∀ rid cat, w.db.countCat rid cat ≤ 5)
    (id fileId : Option Nat) (out : DeleteFileOutcome) (w2 : World)
    (h : deleteFile w id fileId = (out, w2)) :
    ∀ rid cat, w2.db.countCat rid cat ≤ 5 := by
  intro rid cat
  simp only [deleteFile] at h
  repeat' split at h
  all_goals injection h with h1 h2
  all_goals subst h2
  all_goals try dsimp only
  all_goals first
    | exact hInv rid cat
    | (rw [countCat_syncIdCard]
       exact le_trans (countCat_filter_le _ _ _ _) (hInv rid cat))

/-- A count never exceeds the total number of file rows. -/
theorem countCat_le_total (db : DB) (rid : Nat) (cat : String) :
    db.countCat rid cat ≤ db.files.length :=
  List.length_filter_le _ _

/-- **C4.** For every request and attachment category, the stored attachment
count never exceeds 5: the bound is preserved by every mutating operation
(public submission, admin creation, add-files, admin update, file deletion),
given multer's per-field `maxCount: 5` bound on uploads and a fresh identity
for new requests; and every over-quota upload batch is refused on both write
paths and for both categories — an add-files or update request whose new
files would push the deposit-evidence or the identity-document count beyond
5 fails with that category's quota error, inserts zero attachment rows, and
removes the just-uploaded files from the upload directory (on the update
path, rows deleted by `_delete_files` are rolled back with the transaction,
so the table is exactly as before the call). -/
theorem attachment_quota (w : World) (ctx : Ctx) (deposit idcard : List UploadedFile)
    (hInv : ∀ rid cat, w.db.countCat rid cat ≤ 5)
    (hmulter : multerFieldsOk deposit idcard)
    (hfresh : ∀ cat, w.db.countCat ctx.nextRid cat = 0) :
    (∀ b y m d rands out w2, publicSubmit w b deposit idcard y m d rands ctx = (out, w2) →
      ∀ rid cat, w2.db.countCat rid cat ≤ 5) ∧
    (∀ b y m d rands out w2, adminCreate w b deposit idcard y m d rands ctx = (out, w2) →
      ∀ rid cat, w2.db.countCat rid cat ≤ 5) ∧
    (∀ id out w2, addFiles w id deposit idcard ctx = (out, w2) →
      ∀ rid cat, w2.db.countCat rid cat ≤ 5) ∧
    (∀ id p delSpec out w2, adminUpdate w id p delSpec deposit idcard ctx = (out, w2) →
      ∀ rid cat, w2.db.countCat rid cat ≤ 5) ∧
    (∀ id fid out w2, deleteFile w id fid = (out, w2) →
      ∀ rid cat, w2.db.countCat rid cat ≤ 5) ∧
    (∀ rid0, (w.db.findRequest rid0).isSome →
      5 < w.db.countCat rid0 depositCat + deposit.length →
      (addFiles w (some rid0) deposit idcard ctx).1 = .quotaDeposit ∧
      ((addFiles w (some rid0) deposit idcard ctx).2).db = w.db ∧
      ∀ f ∈ deposit ++ idcard,
        f.filename ∉ ((addFiles w (some rid0) deposit idcard ctx).2).disk) ∧
    (∀ rid0, (w.db.findRequest rid0).isSome →
      w.db.countCat rid0 depositCat + deposit.length ≤ 5 →
      5 < w.db.countCat rid0 idCardCat + idcard.length →
      (addFiles w (some rid0) deposit idcard ctx).1 = .quotaIdCard ∧
      ((addFiles w (some rid0) deposit idcard ctx).2).db = w.db ∧
      ∀ f ∈ deposit ++ idcard,
        f.filename ∉ ((addFiles w (some rid0) deposit idcard ctx).2).disk) ∧
    (∀ (rid0 : Nat) (p : Patch) (delSpec : DelSpec) (l : List Int)
        (out : UpdateOutcome) (w2 : World),
      (delSpec = DelSpec.absent ∧ l = [] ∨ delSpec = DelSpec.ids l) →
      (jsTruthy p.deposit_date || jsTruthy p.request_date) = false →
      l.length ≤ 20 →
      (0 < deposit.length ∨ 0 < idcard.length) →
      5 < ((l.foldl (deleteOneFile rid0)
            (w.db, w.disk ++ uploadNames (deposit ++ idcard))).1).countCat rid0 depositCat
          + deposit.length →
      adminUpdate w (some rid0) p delSpec deposit idcard ctx = (out, w2) →
      out = .quotaDeposit ∧ w2.db = w.db ∧
      ∀ f ∈ deposit ++ idcard, f.filename ∉ w2.disk) ∧
    (∀ (rid0 : Nat) (p : Patch) (delSpec : DelSpec) (l : List Int)
        (out : UpdateOutcome) (w2 : World),
      (delSpec = DelSpec.absent ∧ l = [] ∨ delSpec = DelSpec.ids l) →
      (jsTruthy p.deposit_date || jsTruthy p.request_date) = false →
      l.length ≤ 20 →
      (0 < deposit.length ∨ 0 < idcard.length) →
      ((l.foldl (deleteOneFile rid0)
            (w.db, w.disk ++ uploadNames (deposit ++ idcard))).1).countCat rid0 depositCat
          + deposit.length ≤ 5 →
      5 < ((l.foldl (deleteOneFile rid0)
            (w.db, w.disk ++ uploadNames (deposit ++ idcard))).1).countCat rid0 idCardCat
          + idcard.length →
      adminUpdate w (some rid0) p delSpec deposit idcard ctx = (out, w2) →
      out = .quotaIdCard ∧ w2.db = w.db ∧
      ∀ f ∈ deposit ++ idcard, f.filename ∉ w2.disk) := by
  obtain ⟨hdep, hidc⟩ := hmulter
  refine ⟨fun b y m d rands out w2 h =>
      quota_publicSubmit w ctx deposit idcard hInv hdep hidc hfresh b y m d rands out w2 h,
    fun b y m d rands out w2 h =>
      quota_adminCreate w ctx deposit idcard hInv hdep hidc hfresh b y m d rands out w2 h,
    fun id out w2 h => quota_addFiles w ctx deposit idcard hInv id out w2 h,
    fun id p delSpec out w2 h =>
      quota_adminUpdate w ctx deposit idcard hInv id p delSpec out w2 h,
    fun id fid out w2 h => quota_deleteFile w hInv id fid out w2 h,
    fun rid0 hfind hover => ?_,
    fun rid0 hfind hdok hiover => ?_,
    fun rid0 p delSpec l out w2 hds hdt hlen hup hover h => ?_,
    fun rid0 p delSpec l out w2 hds hdt hlen hup hdok hiover h => ?_⟩
  · obtain ⟨row, hrow⟩ := Option.isSome_iff_exists.mp hfind
    simp only [addFiles]
    rw [hrow]
    rw [if_pos hover]
    exact ⟨rfl, rfl, fun f hf => cleanupUpload_not_mem _ _ f hf⟩
  · obtain ⟨row, hrow⟩ := Option.isSome_iff_exists.mp hfind
    simp only [addFiles]
    rw [hrow]
    rw [if_neg (Nat.not_lt.mpr hdok)]
    rw [if_pos hiover]
    exact ⟨rfl, rfl, fun f hf => cleanupUpload_not_mem _ _ f hf⟩
  · rcases hds with ⟨hda, hl⟩ | hda
    · subst hda; subst hl
      simp only [adminUpdate] at h
      rw [hdt, Bool.false_and, if_neg Bool.false_ne_true] at h
      rw [if_neg (show ¬((false = true) ∧ 20 < List.length ([] : List Int)) from
        fun hc => Bool.false_ne_true hc.1)] at h
      rw [if_pos (And.intro hup hover)] at h
      injection h with h1 h2
      subst h1; subst h2
      exact ⟨rfl, rfl, fun f hf => cleanupUpload_not_mem _ _ f hf⟩
    · subst hda
      simp only [adminUpdate] at h
      rw [hdt, Bool.false_and, if_neg Bool.false_ne_true] at h
      rw [if_neg (show ¬(True ∧ 20 < List.length l) from
        fun hc => absurd hc.2 (Nat.not_lt.mpr hlen))] at h
      rw [if_pos (And.intro hup hover)] at h
      injection h with h1 h2
      subst h1; subst h2
      exact ⟨rfl, rfl, fun f hf => cleanupUpload_not_mem _ _ f hf⟩
  · rcases hds with ⟨hda, hl⟩ | hda
    · subst hda; subst hl
      simp only [adminUpdate] at h
      rw [hdt, Bool.false_and, if_neg Bool.false_ne_true] at h
      rw [if_neg (show ¬((false = true) ∧ 20 < List.length ([] : List Int)) from
        fun hc => Bool.false_ne_true hc.1)] at h
      rw [if_neg (fun hc => absurd hc.2 (Nat.not_lt.mpr hdok) :
        ¬((0 < deposit.length ∨ 0 < idcard.length) ∧
          5 < (List.foldl (deleteOneFile rid0)
            (w.db, w.disk ++ uploadNames (deposit ++ idcard)) ([] : List Int)).1.countCat
              rid0 depositCat + deposit.length))] at h
      rw [if_pos (And.intro hup hiover)] at h
      injection h with h1 h2
      subst h1; subst h2
      exact ⟨rfl, rfl, fun f hf => cleanupUpload_not_mem _ _ f hf⟩
    · subst hda
      simp only [adminUpdate] at h
      rw [hdt, Bool.false_and, if_neg Bool.false_ne_true] at h
      rw [if_neg (show ¬(True ∧ 20 < List.length l) from
        fun hc => absurd hc.2 (Nat.not_lt.mpr hlen))] at h
      rw [if_neg (fun hc => absurd hc.2 (Nat.not_lt.mpr hdok) :
        ¬((0 < deposit.length ∨ 0 < idcard.length) ∧
          5 < ((l.foldl (deleteOneFile rid0)
            (w.db, w.disk ++ uploadNames (deposit ++ idcard))).1).countCat rid0 depositCat
            + deposit.length))] at h
      rw [if_pos (And.intro hup hiover)] at h
      injection h with h1 h2
      subst h1; subst h2
      exact ⟨rfl, rfl, fun f hf => cleanupUpload_not_mem _ _ f hf⟩

/-- One of the five pre-existing deposit-evidence rows of `w5`. -/
def mkDepositRow (i : Nat) (name : String) : FileRow :=
  { fid := i, request_id := 1, filename := name, original_name := name,
    file_type := "jpg", category := "입출금거래내역서", uploaded_at := i }

/-- A request that already holds five deposit-evidence attachments. -/
def w5 : World :=
  { db := { requests := [mkRow 1 "대기"],
            files := [mkDepositRow 1 "a1.jpg", mkDepositRow 2 "a2.jpg",
                      mkDepositRow 3 "a3.jpg", mkDepositRow 4 "a4.jpg",
                      mkDepositRow 5 "a5.jpg"] },
    disk := ["a1.jpg", "a2.jpg", "a3.jpg", "a4.jpg", "a5.jpg"] }

/-- One of the five pre-existing identity-document rows of `w5i`. -/
def mkIdRow (i : Nat) (name : String) : FileRow :=
  { fid := i, request_id := 1, filename := name, original_name := name,
    file_type := "png", category := "신분증", uploaded_at := i }

/-- A request that already holds five identity-document attachments. -/
def w5i : World :=
  { db := { requests := [mkRow 1 "대기"],
            files := [mkIdRow 1 "b1.png", mkIdRow 2 "b2.png", mkIdRow 3 "b3.png",
                      mkIdRow 4 "b4.png", mkIdRow 5 "b5.png"] },
    disk := ["b1.png", "b2.png", "b3.png", "b4.png", "b5.png"] }

/-- Fresh counters for `w5`. -/
def ctx6 : Ctx := { nextRid := 2, nextFid := 6, clock := 6 }

/-- An admin update on `w5` adding a sixth deposit-evidence file (no
deletions, a non-truthy date patch). -/
def updDemoDep : UpdateOutcome × World :=
  adminUpdate w5 (some 1) pBank .absent okDeposit [] ctx6

/-- An admin update on `w5i` adding a sixth identity document while asking to
delete a non-existent file id. -/
def updDemoId : UpdateOutcome × World :=
  adminUpdate w5i (some 1) pBank (.ids [99]) [] okIdcard ctx6

/-- Witness for C4: on a request already holding five files of a category,
a sixth file of that category is refused on both the add-files and the
update path, for both categories — the handler returns that category's quota
error, no row is inserted, and the uploaded file is removed from the upload
directory. -/
theorem attachment_quota_witness :
    ((addFiles w5 (some 1) okDeposit [] ctx6).1 = .quotaDeposit ∧
     ((addFiles w5 (some 1) okDeposit [] ctx6).2).db = w5.db ∧
     "d1.jpg" ∉ ((addFiles w5 (some 1) okDeposit [] ctx6).2).disk) ∧
    ((addFiles w5i (some 1) [] okIdcard ctx6).1 = .quotaIdCard ∧
     ((addFiles w5i (some 1) [] okIdcard ctx6).2).db = w5i.db ∧
     "i1.png" ∉ ((addFiles w5i (some 1) [] okIdcard ctx6).2).disk) ∧
    (updDemoDep.1 = .quotaDeposit ∧ updDemoDep.2.db = w5.db ∧
     "d1.jpg" ∉ updDemoDep.2.disk) ∧
    (updDemoId.1 = .quotaIdCard ∧ updDemoId.2.db = w5i.db ∧
     "i1.png" ∉ updDemoId.2.disk) := by
  have hInv5 : ∀ rid cat, w5.db.countCat rid cat ≤ 5 :=
    fun rid cat => le_trans (countCat_le_total _ _ _) (by decide)
  have hInv5i : ∀ rid cat, w5i.db.countCat rid cat ≤ 5 :=
    fun rid cat => le_trans (countCat_le_total _ _ _) (by decide)
  have hA := attachment_quota w5 ctx6 okDeposit [] hInv5
    (by constructor <;> decide) (fun cat => rfl)
  have hB := attachment_quota w5i ctx6 [] okIdcard hInv5i
    (by constructor <;> decide) (fun cat => rfl)
  refine ⟨?_, ?_, ?_, ?_⟩
  · obtain ⟨h1, h2, h3⟩ := hA.2.2.2.2.2.1 1 (by decide) (by decide)
    exact ⟨h1, h2, h3 ⟨"d1.jpg", "evidence.jpg"⟩ (by decide)⟩
  · obtain ⟨h1, h2, h3⟩ := hB.2.2.2.2.2.2.1 1 (by decide) (by decide) (by decide)
    exact ⟨h1, h2, h3 ⟨"i1.png", "idcard.png"⟩ (by decide)⟩
  · obtain ⟨h1, h2, h3⟩ := hA.2.2.2.2.2.2.2.1 1 pBank .absent []
      updDemoDep.1 updDemoDep.2 (Or.inl ⟨rfl, rfl⟩) (by decide) (by decide)
      (Or.inl (by decide)) (by decide) rfl
    exact ⟨h1, h2, h3 ⟨"d1.jpg", "evidence.jpg"⟩ (by decide)⟩
  · obtain ⟨h1, h2, h3⟩ := hB.2.2.2.2.2.2.2.2 1 pBank (.ids [99]) [99]
      updDemoId.1 updDemoId.2 (Or.inr rfl) (by decide) (by decide)
      (Or.inr (by decide)) (by decide) (by decide) rfl
    exact ⟨h1, h2, h3 ⟨"i1.png", "idcard.png"⟩ (by decide)⟩

/-! ## C7 — primary-file pointer synchronisation -/

/-- The claim's characterisation of the synchronised pointer: the stored
filename of some earliest-uploaded remaining attachment of the request, or
null when none remain. -/
def EarliestRemaining (db : DB) (rid : Nat) (v : Option String) : Prop :=
  match v with
  | none => db.filesOf rid = []
  | some name =>
    ∃ f ∈ db.filesOf rid, f.filename = name ∧
      ∀ g ∈ db.filesOf rid, f.uploaded_at ≤ g.uploaded_at

/-- The minimum scan started at `some g` produces a minimum of `g` and the
list. -/
theorem foldlMin_min (l : List FileRow) (g : FileRow) :
    ∃ f, l.foldl minStep (some g) = some f ∧ (f = g ∨ f ∈ l) ∧
      f.uploaded_at ≤ g.uploaded_at ∧ ∀ x ∈ l, f.uploaded_at ≤ x.uploaded_at := by
  induction l generalizing g with
  | nil => exact ⟨g, rfl, Or.inl rfl, le_refl _, by simp⟩
  | cons x rest ih =>
    by_cases hx : x.uploaded_at < g.uploaded_at
    · obtain ⟨f, hfold, hmem, hle, hall⟩ := ih x
      refine ⟨f, ?_, ?_, ?_, ?_⟩
      · simpa [List.foldl, minStep, hx] using hfold
      · rcases hmem with h | h
        · exact Or.inr (by simp [h])
        · exact Or.inr (by simp [h])
      · exact le_trans hle (le_of_lt hx)
      · intro y hy
        rcases List.mem_cons.mp hy with h | h
        · exact h ▸ hle
        · exact hall y h
    · obtain ⟨f, hfold, hmem, hle, hall⟩ := ih g
      refine ⟨f, ?_, ?_, hle, ?_⟩
      · simpa [List.foldl, minStep, hx] using hfold
      · rcases hmem with h | h
        · exact Or.inl h
        · exact Or.inr (by simp [h])
      · intro y hy
        rcases List.mem_cons.mp hy with h | h
        · exact h ▸ le_trans hle (Nat.le_of_not_lt hx)
        · exact hall y h

/-- `earliestFileRow` computes exactly the claim's earliest-remaining
attachment: `none` iff the request has no attachments, otherwise a minimal
one. -/
theorem earliestFileRow_spec (db : DB) (rid : Nat) :
    EarliestRemaining db rid ((earliestFileRow db rid).map (·.filename)) := by
  unfold earliestFileRow
  rcases hl : db.filesOf rid with _ | ⟨x, rest⟩
  · simp [EarliestRemaining, hl]
  · obtain ⟨f, hfold, hmem, hle, hall⟩ := foldlMin_min rest x
    have hfold2 : (x :: rest).foldl minStep none = some f := by
      simpa [List.foldl, minStep] using hfold
    rw [hfold2]
    refine ⟨f, ?_, rfl, ?_⟩
    · rw [hl]
      rcases hmem with h | h
      · simp [h]
      · simp [h]
    · intro g hg
      rw [hl] at hg
      rcases List.mem_cons.mp hg with h | h
      · exact h ▸ hle
      · exact hall g h

/-- Rewriting one request's row leaves its `find?` result the image of the
original, provided the rewrite preserves the surrogate id. -/
theorem findRequest_mapRequest (db : DB) (rid : Nat) (g : RequestRow → RequestRow)
    (hg : ∀ r, (g r).rid = r.rid) :
    (db.mapRequest rid g).findRequest rid = (db.findRequest rid).map g := by
  simp only [DB.mapRequest, DB.findRequest]
  induction db.requests with
  | nil => rfl
  | cons r rest ih =>
    by_cases h : r.rid = rid
    · simp [List.find?_cons, h, hg r]
    · simp only [List.map_cons, List.find?_cons, if_neg h]
      rw [decide_eq_false h]
      exact ih

/-- Setting a request's `id_card_file` to the scan result establishes the
earliest-remaining property for the row read back afterwards. -/
theorem earliest_after_set (db' : DB) (rid : Nat) (g : RequestRow → RequestRow)
    (hrid : ∀ r, (g r).rid = r.rid)
    (hset : ∀ r, (g r).id_card_file = (earliestFileRow db' rid).map (·.filename))
    (row : RequestRow) (h : (db'.mapRequest rid g).findRequest rid = some row) :
    EarliestRemaining (db'.mapRequest rid g) rid row.id_card_file := by
  rw [findRequest_mapRequest db' rid g hrid] at h
  rcases hfind : db'.findRequest rid with _ | r0
  · rw [hfind] at h
    exact Option.noConfusion h
  · rw [hfind] at h
    have hgr : g r0 = row := Option.some_inj.mp h
    have hrow : row.id_card_file = (earliestFileRow db' rid).map (·.filename) := by
      rw [← hgr]
      exact hset r0
    rw [hrow]
    exact earliestFileRow_spec db' rid

/-- **C7.** After every successful attachment add (`POST .../files`),
individual delete (`DELETE .../file/:fileId`), and update with bulk delete /
new files (`PUT /api/admin/request/:id`), the request's denormalized
`id_card_file` equals the stored filename of an earliest-uploaded remaining
attachment of that request, or is null if no attachments remain. -/
theorem primary_file_sync (w : World) (ctx : Ctx) :
    (∀ rid deposit idcard n w2 row,
      addFiles w (some rid) deposit idcard ctx = (.ok n, w2) →
      w2.db.findRequest rid = some row →
      EarliestRemaining w2.db rid row.id_card_file) ∧
    (∀ rid fid w2 row,
      deleteFile w (some rid) (some fid) = (.ok, w2) →
      w2.db.findRequest rid = some row →
      EarliestRemaining w2.db rid row.id_card_file) ∧
    (∀ rid p delSpec deposit idcard fields w2 row,
      adminUpdate w (some rid) p delSpec deposit idcard ctx = (.ok fields, w2) →
      w2.db.findRequest rid = some row →
      EarliestRemaining w2.db rid row.id_card_file) := by
  refine ⟨fun rid deposit idcard n w2 row h hrow => ?_,
    fun rid fid w2 row h hrow => ?_,
    fun rid p delSpec deposit idcard fields w2 row h hrow => ?_⟩
  · simp only [addFiles] at h
    repeat' split at h
    all_goals injection h with h1 h2
    all_goals cases h1
    all_goals subst h2
    simp only [syncIdCard] at hrow ⊢
    refine earliest_after_set _ rid _ (fun r => ?_) (fun r => ?_) row hrow <;> exact rfl
  · simp only [deleteFile] at h
    repeat' split at h
    all_goals injection h with h1 h2
    all_goals try cases h1
    all_goals subst h2
    all_goals simp only [syncIdCard] at hrow ⊢
    all_goals (refine earliest_after_set _ rid _ (fun r => ?_) (fun r => ?_) row hrow <;>
      exact rfl)
  · rcases delSpec with _ | _ | _ | l0
    all_goals simp only [adminUpdate] at h
    all_goals repeat' split at h
    all_goals injection h with h1 h2
    all_goals try contradiction
    all_goals cases h1
    all_goals subst h2
    all_goals first
      | (refine earliest_after_set _ rid _ (fun r => ?_) (fun r => ?_) row hrow <;>
         exact rfl)
      | simp_all [nothingToUpdateCheck_append]

/-- A single request with no attachments yet. -/
def wOne : World := { db := { requests := [mkRow 1 "대기"], files := [] }, disk := [] }

/-- Witness for C7: adding one file to an empty request makes its
`id_card_file` the earliest (only) attachment; updating with no file change
re-syncs to null. -/
theorem primary_file_sync_witness :
    (((addFiles wOne (some 1) okDeposit [] ctx6).2).db.findRequest 1
        = some { mkRow 1 "대기" with id_card_file := some "d1.jpg" } ∧
      EarliestRemaining ((addFiles wOne (some 1) okDeposit [] ctx6).2).db 1
        (some "d1.jpg")) ∧
    (((adminUpdate wOne (some 1) pBank .absent [] [] ctx6).2).db.findRequest 1
        = some { mkRow 1 "대기" with bank_name := "신한은행", id_card_file := none } ∧
      EarliestRemaining ((adminUpdate wOne (some 1) pBank .absent [] [] ctx6).2).db 1
        none) := by
  have hfst : (addFiles wOne (some 1) okDeposit [] ctx6).1 = .ok 1 := by decide
  have hrow : ((addFiles wOne (some 1) okDeposit [] ctx6).2).db.findRequest 1
      = some { mkRow 1 "대기" with id_card_file := some "d1.jpg" } := by decide
  have hfst2 : (adminUpdate wOne (some 1) pBank .absent [] [] ctx6).1
      = .ok ["bank_name", "id_card_file"] := by decide
  have hrow2 : ((adminUpdate wOne (some 1) pBank .absent [] [] ctx6).2).db.findRequest 1
      = some { mkRow 1 "대기" with bank_name := "신한은행", id_card_file := none } := by decide
  refine ⟨⟨hrow, ?_⟩, ⟨hrow2, ?_⟩⟩
  · have := (primary_file_sync wOne ctx6).1 1 okDeposit [] 1
      (addFiles wOne (some 1) okDeposit [] ctx6).2 _ (by rw [← hfst]) hrow
    simpa using this
  · have := (primary_file_sync wOne ctx6).2.2 1 pBank .absent [] []
      ["bank_name", "id_card_file"] (adminUpdate wOne (some 1) pBank .absent [] [] ctx6).2 _
      (by rw [← hfst2]) hrow2
    simpa using this

/-! ## C2 — request-code format and uniqueness -/

/-- Decimal digit characters satisfy the pattern's digit class. -/
theorem isDigitCh_digitChar (n : Nat) (h : n ≤ 9) : isDigitCh (digitChar n) = true := by
  interval_cases n <;> decide

/-- Well-formedness of a generator random suffix: three characters from
`[A-Z0-9]` (the uppercased hex suffix always satisfies this). -/
def suffixOk (r : String) : Prop :=
  r.data.length = 3 ∧ ∀ ch ∈ r.data, isSuffixCh ch = true

instance (r : String) : Decidable (suffixOk r) := by
  unfold suffixOk
  infer_instance

/-- A code built from a valid type letter, any six-digit date field, a
three-digit sequence field (`seq ≤ 999`) and a well-formed suffix matches the
spec's pattern. -/
theorem matchesCodePattern_build (tp : String) (htp : tp = "R" ∨ tp = "M")
    (a b c seq : Nat) (hseq : seq ≤ 999) (r : String) (hr : suffixOk r) :
    matchesCodePattern
      ((tp ++ "-" ++ (pad2 a ++ pad2 b ++ pad2 c)) ++ "-" ++ pad3 seq ++ "-" ++ r) = true := by
  obtain ⟨hr3, hrc⟩ := hr
  obtain ⟨rc⟩ := r
  simp only at hr3 hrc
  obtain ⟨c1, c2, c3, hrcons⟩ : ∃ c1 c2 c3, rc = [c1, c2, c3] := by
    match rc, hr3 with
    | [c1, c2, c3], _ => exact ⟨c1, c2, c3, rfl⟩
  subst hrcons
  have hp3 : pad3 seq
      = ⟨[digitChar (seq / 100), digitChar (seq / 10 % 10), digitChar (seq % 10)]⟩ := by
    rw [pad3, if_pos hseq]
  have hd1 : isDigitCh (digitChar (seq / 100)) = true :=
    isDigitCh_digitChar _ (by omega)
  have hd2 : isDigitCh (digitChar (seq / 10 % 10)) = true :=
    isDigitCh_digitChar _ (by omega)
  have hd3 : isDigitCh (digitChar (seq % 10)) = true :=
    isDigitCh_digitChar _ (by omega)
  have hdm : ∀ n : Nat, isDigitCh (digitChar (n % 10)) = true :=
    fun n => isDigitCh_digitChar _ (by omega)
  have hc1 : isSuffixCh c1 = true := hrc c1 (by simp)
  have hc2 : isSuffixCh c2 = true := hrc c2 (by simp)
  have hc3 : isSuffixCh c3 = true := hrc c3 (by simp)
  rcases htp with h | h <;> subst h <;>
    simp [matchesCodePattern, pad2, hp3, hd1, hd2, hd3, hdm, hc1, hc2, hc3]

/-- The generator's retry loop: a returned candidate is absent from the
stored codes, and it matches the pattern as long as every sequence number the
loop can reach stays at or below 999 and the random suffixes are
well-formed. -/
theorem genLoop_spec (codes : List String) (requestType : String) (y m d : Nat) :
    ∀ fuel seq rands c, genLoop codes (codePre requestType y m d) fuel seq rands = some c →
      codes.contains c = false ∧
      (seq + fuel ≤ 1000 → (∀ r ∈ rands, suffixOk r) → matchesCodePattern c = true) := by
  intro fuel
  induction fuel with
  | zero => intro seq rands c h; exact absurd h (by simp [genLoop])
  | succ n ih =>
    intro seq rands c h
    match rands with
    | [] => exact absurd h (by simp [genLoop])
    | r :: rs =>
      rw [genLoop] at h
      by_cases hdup : codes.contains ((codePre requestType y m d) ++ "-" ++ pad3 seq ++ "-" ++ r)
      · rw [if_pos hdup] at h
        obtain ⟨hmem, hpat⟩ := ih (seq + 1) rs c h
        exact ⟨hmem, fun hb hr => hpat (by omega) (fun x hx => hr x (by simp [hx]))⟩
      · rw [if_neg hdup] at h
        obtain rfl : (codePre requestType y m d) ++ "-" ++ pad3 seq ++ "-" ++ r = c :=
          Option.some_inj.mp h
        refine ⟨by simpa using hdup, fun hb hr => ?_⟩
        have hseq : seq ≤ 999 := by omega
        by_cases ht : requestType = "오입금"
        · have : codePre requestType y m d
              = ("M" ++ "-" ++ (pad2 (y % 100) ++ pad2 m ++ pad2 d)) := by
            simp [codePre, ht]
          rw [this]
          exact matchesCodePattern_build "M" (Or.inr rfl) _ _ _ seq hseq r
            (hr r (by simp))
        · have : codePre requestType y m d
              = ("R" ++ "-" ++ (pad2 (y % 100) ++ pad2 m ++ pad2 d)) := by
            simp [codePre, ht]
          rw [this]
          exact matchesCodePattern_build "R" (Or.inl rfl) _ _ _ seq hseq r
            (hr r (by simp))

/-- A database already holding the 999th same-day refund code. -/
def w999 : World :=
  { db := { requests := [{ mkRow 1 "대기" with request_code := "R-261012-999-AAA" }],
            files := [] },
    disk := [] }

/-- **C2 counterexample.** The claim fails as stated: when the stored maximum
same-day sequence number is 999 (the thousandth accepted submission of that
type and day), the accepted submission is issued the code `R-261012-1000-AB1`,
whose four-digit sequence field does not match `<R|M>-\d{6}-\d{3}-[A-Z0-9]{3}`. -/
theorem requestCode_pattern_counterexample :
    (publicSubmit w999 okBody okDeposit okIdcard 2026 10 12 rands5 ctx6).1
      = .ok "R-261012-1000-AB1" ∧
    matchesCodePattern "R-261012-1000-AB1" = false := by
  constructor
  · decide
  · decide

/-- **C2 (amended).** For every submission accepted by the public
`submitClaim` operation, the returned `requestCode` is distinct from the
`request_code` of every previously stored request; and it matches the pattern
`<R|M>-\d{6}-\d{3}-[A-Z0-9]{3}` provided that the per-(type, date) sequence
numbers the generator can reach stay at or below 999 (fewer than ~995
same-day submissions of that type) and the random suffixes are three
characters from `[A-Z0-9]` (always true of the uppercased hex suffix). -/
theorem requestCode_unique_and_pattern (w : World) (b : Body)
    (deposit idcard : List UploadedFile) (y m d : Nat) (rands : List String)
    (ctx : Ctx) (code : String) (w2 : World)
    (h : publicSubmit w b deposit idcard y m d rands ctx = (.ok code, w2)) :
    (w.db.requests.map (·.request_code)).contains code = false ∧
    (maxSeq (w.db.requests.map (·.request_code))
        (codePre (jsOr b.request_type "반환청구") y m d) + 6 ≤ 1000 →
      (∀ r ∈ rands, suffixOk r) → matchesCodePattern code = true) := by
  simp only [publicSubmit] at h
  rcases hc : publicCheck b deposit idcard with _ | e
  · rw [hc] at h
    simp only [publicInsert] at h
    rcases hg : generateRequestCode (w.db.requests.map (·.request_code))
        (jsOr b.request_type "반환청구") y m d rands with _ | newCode
    · rw [hg] at h
      simp at h
    · rw [hg] at h
      have h1 := congrArg Prod.fst h
      simp only at h1
      injection h1 with hcode
      subst hcode
      unfold generateRequestCode at hg
      obtain ⟨hmem, hpat⟩ := genLoop_spec _ _ y m d 5 _ rands newCode hg
      exact ⟨hmem, fun hb hr => hpat (by omega) hr⟩
  · rw [hc] at h
    have h1 := congrArg Prod.fst h
    simp only at h1
    exact absurd (h1 ▸ hc) (by simpa [h1] using publicCheck_ne_ok b deposit idcard code)

/-- Witness for the amended C2: a concrete accepted submission issues a fresh
pattern-conformant code. -/
theorem requestCode_unique_and_pattern_witness :
    (emptyWorld.db.requests.map (·.request_code)).contains "R-261012-001-AB1" = false ∧
    matchesCodePattern "R-261012-001-AB1" = true := by
  have hres : (publicSubmit emptyWorld okBody okDeposit okIdcard 2026 10 12 rands5 ctx0).1
      = .ok "R-261012-001-AB1" := by decide
  obtain ⟨h1, h2⟩ := requestCode_unique_and_pattern emptyWorld okBody okDeposit okIdcard
    2026 10 12 rands5 ctx0 "R-261012-001-AB1" _ (by rw [← hres])
  exact ⟨h1, h2 (by decide) (by decide)⟩

/-! ## C3 — deposit_date ≤ request_date ordering -/

/-- The admin-create validation prelude never produces a success outcome. -/
theorem adminCheck_ne_ok (b : Body) (c : String) : adminCheck b ≠ some (.ok c) := by
  intro h
  simp only [adminCheck] at h
  split at h
  · simp_all
  · split at h
    · simp_all
    · split at h
      · simp_all
      · split at h
        · simp_all
        · split at h <;> simp_all

/-- If admin-create validation passes, the submitted dates are in order
(`deposit_date <= request_date`). -/
theorem adminCheck_none_date (b : Body) (h : adminCheck b = none) :
    dateLt (b.request_date.getD "") (b.deposit_date.getD "") = false := by
  by_contra hlt
  simp only [adminCheck] at h
  repeat' split at h
  all_goals simp_all

/-- Public submission with a future deposit date: `deposit_date` one day
after the server date. -/
def futureBody : Body := { okBody with deposit_date := some "2026-10-13" }

/-- **C3 counterexample.** The claim fails on the public submission path: the
handler performs no ordering check between the client-supplied `deposit_date`
and the server-assigned `request_date`, so a submission on 2026-10-12 with
`deposit_date = 2026-10-13` is accepted and stores a row with
`request_date < deposit_date`. -/
theorem date_order_counterexample :
    (publicSubmit emptyWorld futureBody okDeposit okIdcard 2026 10 12 rands5 ctx0).1
      = .ok "R-261012-001-AB1" ∧
    ((publicSubmit emptyWorld futureBody okDeposit okIdcard 2026 10 12 rands5 ctx0).2).db.requests.map
        (fun r => (r.deposit_date, r.request_date)) = [("2026-10-13", "2026-10-12")] ∧
    dateLt "2026-10-12" "2026-10-13" = true := by
  refine ⟨by decide, by decide, by decide⟩

/-- **C3 (amended).** The ordering `deposit_date <= request_date` is enforced
on the admin paths: (i) every request created by admin creation satisfies it;
(ii) an admin creation whose body violates it is rejected with a validation
error and leaves the stored state unchanged; (iii) a successful admin update
that patches either date satisfies it for the effective pair — patched values
where present (non-falsy), stored values otherwise; (iv) an update patch
violating the effective ordering is rejected with the date-order validation
error and leaves the stored state unchanged.  The public submission path
performs no such check (see the counterexample). -/
theorem date_order_enforced (w : World) (ctx : Ctx) :
    (∀ b deposit idcard y m d rands code w2,
      adminCreate w b deposit idcard y m d rands ctx = (.ok code, w2) →
      ∃ row : RequestRow, w2.db.requests = w.db.requests ++ [row] ∧
        dateLt row.request_date row.deposit_date = false) ∧
    (∀ b deposit idcard y m d rands out w2,
      adminCreate w b deposit idcard y m d rands ctx = (out, w2) →
      dateLt (b.request_date.getD "") (b.deposit_date.getD "") = true →
      (∀ code, out ≠ .ok code) ∧ w2.db = w.db) ∧
    (∀ rid p delSpec deposit idcard fields w2 row0,
      w.db.findRequest rid = some row0 →
      (jsTruthy p.deposit_date || jsTruthy p.request_date) = true →
      jsOr p.request_date row0.request_date ≠ "" →
      jsOr p.deposit_date row0.deposit_date ≠ "" →
      adminUpdate w (some rid) p delSpec deposit idcard ctx = (.ok fields, w2) →
      dateLt (jsOr p.request_date row0.request_date)
        (jsOr p.deposit_date row0.deposit_date) = false) ∧
    (∀ rid p delSpec deposit idcard out w2,
      ∀ row0, w.db.findRequest rid = some row0 →
      (jsTruthy p.deposit_date || jsTruthy p.request_date) = true →
      jsOr p.request_date row0.request_date ≠ "" →
      jsOr p.deposit_date row0.deposit_date ≠ "" →
      dateLt (jsOr p.request_date row0.request_date)
        (jsOr p.deposit_date row0.deposit_date) = true →
      adminUpdate w (some rid) p delSpec deposit idcard ctx = (out, w2) →
      out = .dateOrder ∧ w2.db = w.db) := by
  have hviol : ∀ (rid : Nat) (p : Patch) (row0 : RequestRow),
      w.db.findRequest rid = some row0 →
      (jsTruthy p.deposit_date || jsTruthy p.request_date) = true →
      jsOr p.request_date row0.request_date ≠ "" →
      jsOr p.deposit_date row0.deposit_date ≠ "" →
      dateLt (jsOr p.request_date row0.request_date)
        (jsOr p.deposit_date row0.deposit_date) = true →
      ((jsTruthy p.deposit_date || jsTruthy p.request_date) &&
        (match w.db.findRequest rid with
         | none => false
         | some ex =>
           jsOr p.request_date ex.request_date ≠ "" &&
           jsOr p.deposit_date ex.deposit_date ≠ "" &&
           dateLt (jsOr p.request_date ex.request_date)
             (jsOr p.deposit_date ex.deposit_date))) = true := by
    intro rid p row0 hfind hsome hr hd hlt
    rw [hfind, hsome]
    simp [hr, hd, hlt]
  refine ⟨fun b deposit idcard y m d rands code w2 h => ?_,
    fun b deposit idcard y m d rands out w2 h hlt => ?_,
    fun rid p delSpec deposit idcard fields w2 row0 hfind hsome hr hd h => ?_,
    fun rid p delSpec deposit idcard out w2 row0 hfind hsome hr hd hlt h => ?_⟩
  · simp only [adminCreate] at h
    rcases hc : adminCheck b with _ | e
    · rw [hc] at h
      simp only [adminInsert] at h
      rcases hg : generateRequestCode (w.db.requests.map (·.request_code))
          (jsOr b.request_type "반환청구") y m d rands with _ | newCode
      · rw [hg] at h
        simp at h
      · rw [hg] at h
        have h2 := congrArg (fun q => q.2.db.requests) h
        simp only [insertFileRows_requests] at h2
        exact ⟨_, h2.symm, adminCheck_none_date b hc⟩
    · rw [hc] at h
      have h1 := congrArg Prod.fst h
      simp only at h1
      exact absurd (h1 ▸ hc) (by simpa [h1] using adminCheck_ne_ok b code)
  · simp only [adminCreate] at h
    rcases hc : adminCheck b with _ | e
    · exact absurd (adminCheck_none_date b hc) (by simp [hlt])
    · rw [hc] at h
      have h1 := congrArg Prod.fst h
      have h2 := congrArg (fun q => q.2.db) h
      simp only at h1 h2
      refine ⟨fun code => ?_, h2.symm⟩
      rw [← h1]
      intro he
      exact adminCheck_ne_ok b code (he ▸ hc)
  · by_contra hlt
    simp only [Bool.not_eq_false] at hlt
    have hb := hviol rid p row0 hfind hsome hr hd hlt
    simp only [adminUpdate] at h
    rw [if_pos hb] at h
    have h1 := congrArg Prod.fst h
    simp at h1
  · have hb := hviol rid p row0 hfind hsome hr hd hlt
    simp only [adminUpdate] at h
    rw [if_pos hb] at h
    have h1 := congrArg Prod.fst h
    have h2 := congrArg (fun q => q.2.db) h
    simp only at h1 h2
    exact ⟨h1.symm, h2.symm⟩

/-- A fully valid admin creation body (dates in order). -/
def adminBody : Body := { okBody with request_date := some "2026-10-12" }

/-- An admin creation body whose deposit date is after its request date. -/
def violBody : Body := { adminBody with deposit_date := some "2026-12-31" }

/-- An update patch setting `deposit_date` after the stored request date. -/
def pDateBad : Patch :=
  { request_date := none, deposit_date := some "2026-12-31", deposit_amount := none,
    bank_name := none, user_account := none, user_account_name := none,
    contractor_code := none, merchant_code := none, applicant_name := none,
    applicant_phone := none, details := none, status := none }

/-- An update patch setting `deposit_date` before the stored request date. -/
def pDateGood : Patch := { pDateBad with deposit_date := some "2026-10-11" }

/-- Witness for the amended C3: all four legs at concrete inputs. -/
theorem date_order_enforced_witness :
    ((adminCreate emptyWorld adminBody okDeposit okIdcard 2026 10 12 rands5 ctx0).2).db.requests.map
        (fun r => dateLt r.request_date r.deposit_date) = [false] ∧
    ((∀ code, (adminCreate emptyWorld violBody okDeposit okIdcard 2026 10 12 rands5 ctx0).1
        ≠ .ok code) ∧
      ((adminCreate emptyWorld violBody okDeposit okIdcard 2026 10 12 rands5 ctx0).2).db
        = emptyWorld.db) ∧
    dateLt (jsOr pDateGood.request_date "2026-10-12") (jsOr pDateGood.deposit_date "2026-10-10")
        = false ∧
    ((adminUpdate wOne (some 1) pDateBad .absent [] [] ctx6).1 = .dateOrder ∧
      ((adminUpdate wOne (some 1) pDateBad .absent [] [] ctx6).2).db = wOne.db) := by
  have hres1 : (adminCreate emptyWorld adminBody okDeposit okIdcard 2026 10 12 rands5 ctx0).1
      = .ok "R-261012-001-AB1" := by decide
  obtain ⟨row, hreq, hord⟩ := (date_order_enforced emptyWorld ctx0).1 adminBody okDeposit
    okIdcard 2026 10 12 rands5 "R-261012-001-AB1" _ (by rw [← hres1])
  have hgood : (adminUpdate wOne (some 1) pDateGood .absent [] [] ctx6).1
      = .ok ["deposit_date", "id_card_file"] := by decide
  have hc := (date_order_enforced wOne ctx6).2.2.1 1 pDateGood .absent [] []
    ["deposit_date", "id_card_file"] _ (mkRow 1 "대기") (by decide) (by decide)
    (by decide) (by decide) (by rw [← hgood])
  have hd := (date_order_enforced wOne ctx6).2.2.2 1 pDateBad .absent [] []
    (adminUpdate wOne (some 1) pDateBad .absent [] [] ctx6).1
    (adminUpdate wOne (some 1) pDateBad .absent [] [] ctx6).2 (mkRow 1 "대기")
    (by decide) (by decide) (by decide) (by decide) (by decide) rfl
  refine ⟨?_, ?_, ?_, hd⟩
  · rw [hreq]
    simp [hord, emptyWorld]
  · exact (date_order_enforced emptyWorld ctx0).2.1 violBody okDeposit okIdcard
      2026 10 12 rands5 (adminCreate emptyWorld violBody okDeposit okIdcard
        2026 10 12 rands5 ctx0).1
      (adminCreate emptyWorld violBody okDeposit okIdcard 2026 10 12 rands5 ctx0).2
      rfl (by decide)
  · exact hc

/-! ## C8 — refund-claim business requirements -/

/-- What passing public validation guarantees: the minimum amount and
identity document for refund claims, and deposit evidence for both types. -/
theorem publicCheck_none_facts (b : Body) (deposit idcard : List UploadedFile)
    (h : publicCheck b deposit idcard = none) :
    (jsOr b.request_type "반환청구" = "반환청구" →
      2000000 ≤ natOfDigits (stripNonDigits (b.deposit_amount.getD "")) ∧
      1 ≤ idcard.length) ∧
    1 ≤ deposit.length := by
  simp only [publicCheck] at h
  repeat' split at h
  all_goals simp_all
  all_goals exact ⟨fun ht => List.length_pos.mpr (by simp_all),
    List.length_pos.mpr (by simp_all)⟩

/-- An admin creation body with a refund amount below the minimum. -/
def smallBody : Body := { adminBody with deposit_amount := some "1,000,000" }

/-- **C8 counterexample.** The claim fails as stated: the admin creation path
enforces neither the 2,000,000 minimum for refund claims nor any attachment
presence, so a refund claim with amount 1,000,000 and zero attachments is
reachable. -/
theorem refund_invariants_counterexample :
    (adminCreate emptyWorld smallBody [] [] 2026 10 12 rands5 ctx0).1
      = .ok "R-261012-001-AB1" ∧
    ((adminCreate emptyWorld smallBody [] [] 2026 10 12 rands5 ctx0).2).db.requests.map
        (fun r => (r.request_type, r.deposit_amount)) = [("반환청구", 1000000)] ∧
    ((adminCreate emptyWorld smallBody [] [] 2026 10 12 rands5 ctx0).2).db.files = [] := by
  refine ⟨by decide, by decide, by decide⟩

/-- **C8 (amended).** The refund-claim requirements hold for every request
created through the public submission path: a created refund claim
(`반환청구`) has `deposit_amount ≥ 2,000,000` and at least one
identity-document attachment, and every created request of either type has at
least one deposit-evidence attachment.  The admin creation, admin update and
file deletion paths do not enforce these requirements (see the
counterexample). -/
theorem refund_requirements_public (w : World) (ctx : Ctx) (b : Body)
    (deposit idcard : List UploadedFile) (y m d : Nat) (rands : List String)
    (code : String) (w2 : World)
    (h : publicSubmit w b deposit idcard y m d rands ctx = (.ok code, w2)) :
    ∃ row : RequestRow, w2.db.requests = w.db.requests ++ [row] ∧
      (row.request_type = "반환청구" →
        2000000 ≤ row.deposit_amount ∧ 1 ≤ w2.db.countCat row.rid idCardCat) ∧
      1 ≤ w2.db.countCat row.rid depositCat := by
  simp only [publicSubmit] at h
  rcases hc : publicCheck b deposit idcard with _ | e
  · obtain ⟨hrefund, hdep⟩ := publicCheck_none_facts b deposit idcard hc
    rw [hc] at h
    simp only [publicInsert] at h
    rcases hg : generateRequestCode (w.db.requests.map (·.request_code))
        (jsOr b.request_type "반환청구") y m d rands with _ | newCode
    · rw [hg] at h
      simp at h
    · rw [hg] at h
      have h2 := congrArg (fun q => q.2.db.requests) h
      simp only [insertFileRows_requests] at h2
      have h3 := congrArg (fun q => q.2.db) h
      simp only at h3
      refine ⟨_, h2.symm, fun ht => ⟨hrefund ht |>.1, ?_⟩, ?_⟩
      · rw [← h3]
        simp only [countCat_insertFileRows, countCat_withRequests]
        have := (hrefund ht).2
        simp [idCardCat, depositCat]
        omega
      · rw [← h3]
        simp only [countCat_insertFileRows, countCat_withRequests]
        simp [depositCat, idCardCat]
        omega
  · rw [hc] at h
    have h1 := congrArg Prod.fst h
    simp only at h1
    exact absurd (h1 ▸ hc) (by simpa [h1] using publicCheck_ne_ok b deposit idcard code)

/-- Witness for the amended C8: the concrete accepted refund submission holds
the minimum amount and one attachment in each category. -/
theorem refund_requirements_public_witness :
    ((publicSubmit emptyWorld okBody okDeposit okIdcard 2026 10 12 rands5 ctx0).2).db.requests.map
        (fun r => decide (2000000 ≤ r.deposit_amount)) = [true] ∧
    1 ≤ ((publicSubmit emptyWorld okBody okDeposit okIdcard 2026 10 12 rands5 ctx0).2).db.countCat
        1 depositCat ∧
    1 ≤ ((publicSubmit emptyWorld okBody okDeposit okIdcard 2026 10 12 rands5 ctx0).2).db.countCat
        1 idCardCat := by
  have hres : (publicSubmit emptyWorld okBody okDeposit okIdcard 2026 10 12 rands5 ctx0).1
      = .ok "R-261012-001-AB1" := by decide
  obtain ⟨row, hreq, hrefund, hdep⟩ := refund_requirements_public emptyWorld ctx0 okBody
    okDeposit okIdcard 2026 10 12 rands5 "R-261012-001-AB1" _ (by rw [← hres])
  have hrid : ((publicSubmit emptyWorld okBody okDeposit okIdcard 2026 10 12 rands5
      ctx0).2).db.requests.map (·.rid) = [1] := by decide
  have htype : ((publicSubmit emptyWorld okBody okDeposit okIdcard 2026 10 12 rands5
      ctx0).2).db.requests.map (·.request_type) = ["반환청구"] := by decide
  rw [hreq] at hrid htype
  simp [emptyWorld] at hrid htype
  obtain ⟨hamt, hidc⟩ := hrefund htype
  rw [hrid] at hidc hdep
  refine ⟨?_, hdep, hidc⟩
  rw [hreq]
  simp [emptyWorld, hamt]

end ReasonsForm
